import Mathlib

/-!
Shallow embedding of the tool-calling RAG backend (`backend/ai_generator.py`
and `backend/search_tools.py`) together with proofs about the embedded
operations.  Python-level conventions are modelled explicitly:

* Python truthiness of optional strings / integers / lists is modelled by
  the `pyTruthy*` helpers (`None`, `""`, `0` and `[]` are falsy).
* Python `str(...)` on integers and on `None` is modelled by `toDigits`,
  `intRepr` and `pyStrOptInt` (decimal rendering, `"None"` for `None`).
* Python exceptions on out-of-scope collaborators (the Anthropic client,
  `ToolManager.execute_tool`, the vector-store catalog, `json.loads`) are
  modelled by `CallResult`: a call either returns a value or raises with a
  message string.
* Python dictionaries keyed by strings are modelled by association lists
  with insertion-order semantics (`dictInsert`, `dictGet`).

`vector_store.py` is not part of the analysed sources; the pieces of it the
tools consume (`SearchResults`, `search`, `get_lesson_link`,
`_resolve_course_name`, the catalog `get`) are modelled from the spec, as
noted on each definition.
-/

namespace Rag

/-- Outcome of a Python call that may raise: a value, or an exception
carrying `str(e)`. -/
inductive CallResult (α : Type) where
  | ok (value : α)
  | exn (msg : String)
deriving DecidableEq, Repr

/-- Python truthiness of an optional string (`None` and `""` are falsy). -/
def pyTruthyStr : Option String → Bool
  | none => false
  | some s => !s.isEmpty

/-- Python truthiness of an optional integer (`None` and `0` are falsy). -/
def pyTruthyInt : Option Int → Bool
  | none => false
  | some n => n != 0

/-- Decimal digit character for one digit, as Python's `str` renders it. -/
def digitChar (n : Nat) : Char :=
  match n with
  | 0 => '0'
  | 1 => '1'
  | 2 => '2'
  | 3 => '3'
  | 4 => '4'
  | 5 => '5'
  | 6 => '6'
  | 7 => '7'
  | 8 => '8'
  | _ => '9'

/-- Numeric value of a decimal digit character. -/
def digitVal (c : Char) : Nat := c.toNat - 48

/-- Digits of a natural number, most significant first: the model of
Python's `str` on a nonnegative integer. -/
def toDigits (n : Nat) : List Char :=
  if n < 10 then [digitChar n]
  else toDigits (n / 10) ++ [digitChar (n % 10)]
termination_by n
decreasing_by exact Nat.div_lt_self (by omega) (by omega)

/-- Evaluate a digit string back to the number it denotes. -/
def ofDigits (l : List Char) : Nat :=
  l.foldl (fun a c => a * 10 + digitVal c) 0

theorem digitVal_digitChar {n : Nat} (h : n < 10) : digitVal (digitChar n) = n := by
  interval_cases n <;> rfl

theorem digitChar_mem_digits {n : Nat} (h : n < 10) :
    digitChar n ∈ (['0', '1', '2', '3', '4', '5', '6', '7', '8', '9'] : List Char) := by
  interval_cases n <;> decide

theorem toDigits_mem {n : Nat} {c : Char} (hc : c ∈ toDigits n) :
    ∃ k, k < 10 ∧ c = digitChar k := by
  induction n using Nat.strong_induction_on with
  | _ n ih =>
    rw [toDigits] at hc
    by_cases h : n < 10
    · simp only [if_pos h, List.mem_singleton] at hc
      exact ⟨n, h, hc⟩
    · simp only [if_neg h, List.mem_append, List.mem_singleton] at hc
      rcases hc with hc | hc
      · exact ih (n / 10) (Nat.div_lt_self (by omega) (by omega)) hc
      · exact ⟨n % 10, Nat.mod_lt _ (by omega), hc⟩

theorem ofDigits_append_singleton (l : List Char) (c : Char) :
    ofDigits (l ++ [c]) = ofDigits l * 10 + digitVal c := by
  simp [ofDigits, List.foldl_append]

theorem ofDigits_toDigits (n : Nat) : ofDigits (toDigits n) = n := by
  induction n using Nat.strong_induction_on with
  | _ n ih =>
    rw [toDigits]
    by_cases h : n < 10
    · simp [if_pos h, ofDigits, digitVal_digitChar h]
    · rw [if_neg h, ofDigits_append_singleton,
        ih (n / 10) (Nat.div_lt_self (by omega) (by omega)),
        digitVal_digitChar (Nat.mod_lt _ (by omega))]
      omega

theorem toDigits_injective {a b : Nat} (h : toDigits a = toDigits b) : a = b := by
  have := congrArg ofDigits h
  rwa [ofDigits_toDigits, ofDigits_toDigits] at this

theorem digitChar_not_special {k : Nat} (h : k < 10) :
    digitChar k ≠ '|' ∧ digitChar k ≠ '-' ∧ digitChar k ≠ 'N' := by
  interval_cases k <;> refine ⟨by decide, by decide, by decide⟩

/-- Python `str` on an `int`, as a character list (decimal, `-` sign for
negative values). -/
def intRepr : Int → List Char
  | Int.ofNat m => toDigits m
  | Int.negSucc m => '-' :: toDigits (m + 1)

theorem intRepr_mem {n : Int} {c : Char} (hc : c ∈ intRepr n) :
    c = '-' ∨ ∃ k, k < 10 ∧ c = digitChar k := by
  cases n with
  | ofNat m => exact Or.inr (toDigits_mem hc)
  | negSucc m =>
    rcases List.mem_cons.mp hc with h | h
    · exact Or.inl h
    · exact Or.inr (toDigits_mem h)

theorem intRepr_injective {a b : Int} (h : intRepr a = intRepr b) : a = b := by
  cases a with
  | ofNat m =>
    cases b with
    | ofNat k =>
      exact congrArg Int.ofNat (toDigits_injective h)
    | negSucc k =>
      exfalso
      simp only [intRepr] at h
      have hm : '-' ∈ toDigits m := by
        rw [h]
        exact List.mem_cons_self _ _
      rcases toDigits_mem hm with ⟨j, hj, hcj⟩
      exact (digitChar_not_special hj).2.1 hcj.symm
  | negSucc m =>
    cases b with
    | ofNat k =>
      exfalso
      simp only [intRepr] at h
      have hm : '-' ∈ toDigits k := by
        rw [← h]
        exact List.mem_cons_self _ _
      rcases toDigits_mem hm with ⟨j, hj, hcj⟩
      exact (digitChar_not_special hj).2.1 hcj.symm
    | negSucc k =>
      simp only [intRepr] at h
      have h2 : toDigits (m + 1) = toDigits (k + 1) := (List.cons.inj h).2
      have h3 := toDigits_injective h2
      have h4 : m = k := by omega
      exact congrArg Int.negSucc h4

/-- Python `str` on an optional `int` ( `"None"` for `None` ), as chars. -/
def pyStrOptInt : Option Int → List Char
  | none => ['N', 'o', 'n', 'e']
  | some n => intRepr n

theorem pyStrOptInt_no_pipe {l : Option Int} : '|' ∉ pyStrOptInt l := by
  intro hmem
  cases l with
  | none => simp [pyStrOptInt] at hmem
  | some n =>
    rcases intRepr_mem hmem with h | ⟨k, hk, hck⟩
    · exact absurd h (by decide)
    · exact (digitChar_not_special hk).1 hck.symm

theorem pyStrOptInt_injective {a b : Option Int} (h : pyStrOptInt a = pyStrOptInt b) :
    a = b := by
  cases a with
  | none =>
    cases b with
    | none => rfl
    | some n =>
      exfalso
      have : 'N' ∈ intRepr n := by
        rw [show pyStrOptInt (some n) = intRepr n from rfl] at h
        rw [← h]
        decide
      rcases intRepr_mem this with h' | ⟨k, hk, hck⟩
      · exact absurd h' (by decide)
      · exact (digitChar_not_special hk).2.2 hck.symm
  | some m =>
    cases b with
    | none =>
      exfalso
      have : 'N' ∈ intRepr m := by
        rw [show pyStrOptInt (some m) = intRepr m from rfl] at h
        rw [h]
        decide
      rcases intRepr_mem this with h' | ⟨k, hk, hck⟩
      · exact absurd h' (by decide)
      · exact (digitChar_not_special hk).2.2 hck.symm
    | some k => exact congrArg some (intRepr_injective h)

/-- Python `str` on a nonnegative round counter. -/
def natStr (n : Nat) : String := String.mk (toDigits n)

/-- Python `str` on an optional `int`, as a string. -/
def pyStr (l : Option Int) : String := String.mk (pyStrOptInt l)

/-- Python f-string interpolation of an `Optional[str]` (`"None"` for
`None`, the string itself otherwise). -/
def pyOptStr : Option String → String
  | none => "None"
  | some s => s

/-- Python `str` on an `int`, as a string. -/
def intStr (n : Int) : String := String.mk (intRepr n)

/-- Lookup in a Python dict modelled as an insertion-ordered association
list. -/
def dictGet {α : Type} : List (String × α) → String → Option α
  | [], _ => none
  | (k, v) :: rest, key => if k = key then some v else dictGet rest key

/-- Assignment `d[key] = v` on a Python dict: replace in place when the key
exists (keeping its position), append otherwise. -/
def dictInsert {α : Type} : List (String × α) → String → α → List (String × α)
  | [], key, v => [(key, v)]
  | (k, w) :: rest, key, v =>
    if k = key then (key, v) :: rest else (k, w) :: dictInsert rest key v

/-! ## Embedding of `backend/search_tools.py` and the store surface it uses -/

/-- Modelled from the spec: one per-document metadata map in a
`SearchResults` (`vector_store.py` is out of the analysed sources).  It
carries at least `course_title` and optionally `lesson_number`; the tools
read exactly these two keys, via `.get`. -/
structure ChunkMeta where
  course_title : Option String
  lesson_number : Option Int
deriving DecidableEq, Repr

/-- Modelled from the spec: the `SearchResults` data carrier — parallel
`documents` and `metadata` sequences plus an optional error.  The parallel
`distances` sequence (floating-point scores) is never read by the embedded
operations and is omitted. -/
structure SearchResults where
  documents : List String
  metadata : List ChunkMeta
  error : Option String
deriving Repr

/-- Modelled from the spec: `is_empty()` holds iff `documents` is empty. -/
def SearchResults.is_empty (r : SearchResults) : Bool := r.documents.isEmpty

/-- Modelled from the spec: the `VectorStore` surface `CourseSearchTool`
consumes — `search` (returns a `SearchResults`, capturing its own failures
in `error`) and `get_lesson_link` (link or None). -/
structure VectorStore where
  search : String → Option String → Option Int → SearchResults
  get_lesson_link : String → Int → Option String

/-- Provenance record stored in `last_sources`: display text and optional
lesson link. -/
structure SourceEntry where
  text : String
  link : Option String
deriving DecidableEq, Repr

/-- The dedup key `f"{course_title}|{lesson_num}"` of
`CourseSearchTool._format_results`. -/
def source_key (course_title : String) (lesson_num : Option Int) : String :=
  course_title ++ "|" ++ pyStr lesson_num

/-- Display text of a provenance entry: the course title, with
`" - Lesson <n>"` appended when a lesson number is present. -/
def sourceText (course_title : String) (lesson_num : Option Int) : String :=
  match lesson_num with
  | some n => course_title ++ " - Lesson " ++ intStr n
  | none => course_title

/-- The source object `{"text": ..., "link": ...}` built for the first
occurrence of a `(course_title, lesson_num)` pair. -/
def mkSource (store : VectorStore) (course_title : String) (lesson_num : Option Int) :
    SourceEntry :=
  { text := sourceText course_title lesson_num
    link := match lesson_num with
            | some n => store.get_lesson_link course_title n
            | none => none }

/-- The `for doc, meta in zip(...)` loop in
`CourseSearchTool._format_results`: accumulates the formatted blocks and
the insertion-ordered `sources_dict` keyed by `source_key`. -/
def formatLoop (store : VectorStore) :
    List (String × ChunkMeta) → List String → List (String × SourceEntry) →
    List String × List (String × SourceEntry)
  | [], formatted, sources_dict => (formatted, sources_dict)
  | (doc, meta) :: rest, formatted, sources_dict =>
    let course_title := meta.course_title.getD "unknown"
    let lesson_num := meta.lesson_number
    let header := "[" ++ course_title ++
      (match lesson_num with
       | some n => " - Lesson " ++ intStr n
       | none => "") ++ "]"
    let key := source_key course_title lesson_num
    let sources_dict' :=
      if key ∈ sources_dict.map Prod.fst then sources_dict
      else sources_dict ++ [(key, mkSource store course_title lesson_num)]
    formatLoop store rest (formatted ++ [header ++ "\n" ++ doc]) sources_dict'

/-- `CourseSearchTool._format_results`: the joined display string together
with the new `last_sources` value (the dict's values in insertion order). -/
def CourseSearchTool._format_results (store : VectorStore) (results : SearchResults) :
    String × List SourceEntry :=
  let p := formatLoop store (results.documents.zip results.metadata) [] []
  (String.intercalate "\n\n" p.1, p.2.map Prod.snd)

/-- `CourseSearchTool.execute`: returns the tool's reply string and the
tool's `last_sources` field after the call (the field is only written on
the format path). -/
def CourseSearchTool.execute (store : VectorStore) (last_sources : List SourceEntry)
    (query : String) (course_name : Option String) (lesson_number : Option Int) :
    String × List SourceEntry :=
  let results := store.search query course_name lesson_number
  match results.error with
  | some e => (e, last_sources)
  | none =>
    if results.is_empty then
      let filter_info :=
        (if pyTruthyStr course_name then
          " in course '" ++ course_name.getD "" ++ "'" else "") ++
        (if pyTruthyInt lesson_number then
          " in lesson " ++ intStr (lesson_number.getD 0) else "")
      ("No relevant content found" ++ filter_info ++ ".", last_sources)
    else
      CourseSearchTool._format_results store results

/-- Modelled from the spec: one catalog record as the outline tool reads
it (`course_link` and the serialized `lessons_json`, via `.get`). -/
structure CourseMeta where
  course_link : Option String
  lessons_json : Option String

/-- Modelled from the spec: the catalog `get` result — its `metadatas`
list; a Python-falsy result dict is modelled as `none` at the call site. -/
structure CatalogGetResult where
  metadatas : List CourseMeta

/-- Modelled from the spec: one entry of the deserialized lessons array
(`lesson_number` and `lesson_title`, read via `.get` with defaults). -/
structure LessonRec where
  lesson_number : Option Int
  lesson_title : Option String

/-- Modelled from the spec: the store surface `CourseOutlineTool` consumes.
`_resolve_course_name` returns the best catalog match's title or None and
captures its own failures (it never raises); the catalog `get` may raise. -/
structure OutlineStore where
  _resolve_course_name : String → Option String
  catalog_get : List String → CallResult (Option CatalogGetResult)

/-- `CourseOutlineTool.execute`.  `jsonLoads` models `json.loads` on the
serialized lessons array; it may raise. -/
def CourseOutlineTool.execute (store : OutlineStore)
    (jsonLoads : String → CallResult (List LessonRec)) (course_title : String) :
    String :=
  let resolved := store._resolve_course_name course_title
  if !(pyTruthyStr resolved) then
    "No course found matching '" ++ course_title ++ "'"
  else
    let resolved_title := resolved.getD ""
    match store.catalog_get [resolved_title] with
    | .exn e => "Error retrieving course outline: " ++ e
    | .ok none => "Course metadata not found for '" ++ resolved_title ++ "'"
    | .ok (some results) =>
      match results.metadatas with
      | [] => "Course metadata not found for '" ++ resolved_title ++ "'"
      | metadata :: _ =>
        let course_link := metadata.course_link.getD "No link available"
        let lessons_json := metadata.lessons_json.getD "[]"
        match jsonLoads lessons_json with
        | .exn e => "Error retrieving course outline: " ++ e
        | .ok lessons =>
          let formatted_outline :=
            ["**Course:** " ++ resolved_title,
             "**Course Link:** " ++ course_link,
             "**Lessons:**"] ++
            (if lessons.isEmpty then ["  No lessons found"]
             else lessons.map fun lesson =>
               "  " ++ (match lesson.lesson_number with
                        | some n => intStr n
                        | none => "Unknown") ++ ". " ++
                 lesson.lesson_title.getD "Unknown Title")
          String.intercalate "\n" formatted_outline

/-- Anthropic tool definition descriptor; the `input_schema` payload is
kept abstract as a string, only `name` is inspected by the manager. -/
structure ToolDef where
  name : Option String
  description : String
  input_schema : String
deriving DecidableEq, Repr

/-- A registered tool object: its definition and its `execute(**kwargs)`
behaviour (which may raise). -/
structure ToolObj where
  get_tool_definition : ToolDef
  run : List (String × String) → CallResult String

/-- `ToolManager`: the name-keyed registry dict. -/
structure ToolManager where
  tools : List (String × ToolObj)

/-- `ToolManager.register_tool`: raises `ValueError` on a falsy name,
otherwise assigns into the dict (silently replacing an existing entry). -/
def ToolManager.register_tool (m : ToolManager) (tool : ToolObj) :
    CallResult ToolManager :=
  let tool_name := tool.get_tool_definition.name
  if !(pyTruthyStr tool_name) then .exn "Tool must have a 'name' in its definition"
  else .ok { tools := dictInsert m.tools (tool_name.getD "") tool }

/-- `ToolManager.get_tool_definitions`: all registered definitions in
insertion order. -/
def ToolManager.get_tool_definitions (m : ToolManager) : List ToolDef :=
  m.tools.map fun p => p.2.get_tool_definition

/-- `ToolManager.execute_tool`: dispatch by name; unknown names yield the
literal not-found string, a registered tool's own exception propagates. -/
def ToolManager.execute_tool (m : ToolManager) (tool_name : String)
    (kwargs : List (String × String)) : CallResult String :=
  match dictGet m.tools tool_name with
  | none => .ok ("Tool '" ++ tool_name ++ "' not found")
  | some tool => tool.run kwargs

/-! ## Embedding of `backend/ai_generator.py`

The Anthropic client and the tool manager are duck-typed collaborators; the
orchestrator inspects only the response's `stop_reason`, the content
blocks' `type`, `text`, `id`, `name` and `input` attributes, and the
string returned (or exception raised) by `ToolManager.execute_tool`.  They
are modelled as oracles indexed by the number of calls issued so far, and
every request the orchestrator builds is recorded in a `Trace`. -/

/-- One content block of an LLM response, with all the duck-typed
attributes the orchestrator reads. -/
structure ContentBlock where
  type : String
  text : String
  id : String
  name : String
  input : List (String × String)
deriving DecidableEq, Repr

/-- An LLM response: stop reason and ordered content blocks. -/
structure Response where
  stop_reason : String
  content : List ContentBlock
deriving DecidableEq, Repr

/-- One `{"type": "tool_result", ...}` payload collected for an executed
tool call. -/
structure ToolResultPayload where
  type : String
  tool_use_id : String
  content : String
deriving DecidableEq, Repr

/-- Content of one transcript message: the user's query text, an assistant
response's block list, or a list of tool-result payloads. -/
inductive MsgContent where
  | text (s : String)
  | blocks (bs : List ContentBlock)
  | toolResults (rs : List ToolResultPayload)
deriving DecidableEq, Repr

/-- One message of the running transcript. -/
structure Message where
  role : String
  content : MsgContent
deriving DecidableEq, Repr

/-- One request to `client.messages.create`, as the orchestrator builds it
(model / temperature / max_tokens are fixed by `base_params` and carry no
information; `tools` is `none` when the request offers no tools). -/
structure LLMRequest where
  messages : List Message
  system : String
  tools : Option (List ToolDef)
  tool_choice : Option String
deriving DecidableEq, Repr

/-- The external collaborators: the LLM (indexed by how many LLM calls were
issued before) and `ToolManager.execute_tool` (indexed by how many tool
dispatches happened before).  Indexing by call count lets each call behave
arbitrarily. -/
structure Oracles where
  llm : Nat → CallResult Response
  tool : Nat → CallResult String

/-- Record of every externally visible call the orchestrator issued. -/
structure Trace where
  llmRequests : List LLMRequest
  toolDispatches : List (String × List (String × String))
deriving DecidableEq, Repr

def emptyTrace : Trace := { llmRequests := [], toolDispatches := [] }

/-- `RoundContext`: state threaded across rounds. -/
structure RoundContext where
  original_query : String
  conversation_history : Option String
  tools : List ToolDef
  messages : List Message
  current_round : Nat
  errors : List String
deriving DecidableEq, Repr

/-- `RoundContext(...)` as `generate_response` constructs it: the
`__post_init__` hook seeds the transcript with the original query. -/
def initContext (query : String) (history : Option String) (tools : List ToolDef) :
    RoundContext :=
  { original_query := query
    conversation_history := history
    tools := tools
    messages := [{ role := "user", content := .text query }]
    current_round := 0
    errors := [] }

/-- `ToolExecutionResult`: per-round outcome of tool execution. -/
structure ToolExecutionResult where
  failed : Bool := false
  error_message : Option String := none
  tool_results : List ToolResultPayload := []
  executed_tools : List String := []
deriving Repr

/-- The static `SYSTEM_PROMPT` of `AIGenerator`. -/
def SYSTEM_PROMPT : String := " You are an AI assistant specialized in course materials and educational content with access to comprehensive search tools for course information.

Available Tools:
1. **search_course_content**: For searching specific course content and detailed materials
2. **get_course_outline**: For getting course outlines, lesson lists, and course structure

Tool Usage Guidelines:
- **Up to 2 sequential tool calls allowed** - you can reason about results and make additional calls if needed
- **Course outline/structure queries**: Use get_course_outline tool to return course title, course link, and complete lesson list with numbers and titles
- **Content search queries**: Use search_course_content tool for specific material within courses
- **Sequential reasoning**: After receiving tool results, consider if additional tool calls would improve your answer
- **Strategic usage examples**:
  * First call: get_course_outline for a course → Then: search_course_content for specific concepts from that course
  * First call: search_course_content for general topic → Then: search_course_content with refined course/lesson filters
  * First call: search for one course → Then: search for comparison with another course
- Synthesize tool results into accurate, fact-based responses
- If tools yield no results, state this clearly without offering alternatives

Response Protocol:
- **General knowledge questions**: Answer using existing knowledge without using tools
- **Course outline questions**: Use get_course_outline tool first, then format the response with course title, course link, and numbered lesson list
- **Course content questions**: Use search_course_content tool, potentially followed by refined searches
- **Multi-step reasoning**: If first tool results are insufficient, make a second targeted tool call
- **No meta-commentary**:
 - Provide direct answers only — no reasoning process, tool explanations, or question-type analysis
 - Do not mention \"based on the search results\" or \"using the tool\"

All responses must be:
1. **Brief, Concise and focused** - Get to the point quickly
2. **Educational** - Maintain instructional value
3. **Clear** - Use accessible language
4. **Example-supported** - Include relevant examples when they aid understanding
Provide only the direct answer to what was asked.
"

/-- The base system content: the static prompt, augmented with the prior
conversation when one is present (Python truthiness: `""` counts as
absent). -/
def buildSystem (conversation_history : Option String) : String :=
  if pyTruthyStr conversation_history then
    SYSTEM_PROMPT ++ "\n\nPrevious conversation:\n" ++ conversation_history.getD ""
  else SYSTEM_PROMPT

/-- `response.content[0].text`: the first block's text, or the uncaught
`IndexError` Python raises on an empty block list.  Used both by
`_extract_final_response` and by the direct `.content[0].text` reads. -/
def firstText (r : Response) : CallResult String :=
  match r.content with
  | [] => .exn "list index out of range"
  | b :: _ => .ok b.text

/-- The request `AIGenerator._execute_round` builds: the tool-bearing
round request, with the round hint from round 2 on. -/
def roundRequest (ctx : RoundContext) : LLMRequest :=
  let system_content := buildSystem ctx.conversation_history
  let system_content :=
    if ctx.current_round > 1 then
      system_content ++ "\n\nThis is round " ++ natStr ctx.current_round ++
        " of up to 2 rounds. Consider if additional tool calls would improve your answer based on previous results."
    else system_content
  { messages := ctx.messages
    system := system_content
    tools := some ctx.tools
    tool_choice := some "auto" }

/-- `AIGenerator._execute_round`: build the round request, record it, and
consult the LLM oracle. -/
def executeRound (o : Oracles) (ctx : RoundContext) (tr : Trace) :
    CallResult Response × Trace :=
  (o.llm tr.llmRequests.length,
   { tr with llmRequests := tr.llmRequests ++ [roundRequest ctx] })

/-- Whether a content block is a tool-use block
(`content_block.type == "tool_use"`). -/
def isToolUse (b : ContentBlock) : Bool := b.type == "tool_use"

/-- The `for content_block in response.content` loop of
`AIGenerator._execute_tools_for_round`: dispatches tool-use blocks in
order, fail-fast on the first raising call. -/
def execToolsLoop (o : Oracles) (roundNum : Nat) :
    List ContentBlock → ToolExecutionResult → List String → Trace →
    ToolExecutionResult × List String × Trace
  | [], result, errors, tr => (result, errors, tr)
  | b :: rest, result, errors, tr =>
    if isToolUse b then
      let tr' := { tr with toolDispatches := tr.toolDispatches ++ [(b.name, b.input)] }
      match o.tool tr.toolDispatches.length with
      | .ok tool_result =>
        execToolsLoop o roundNum rest
          { result with
              tool_results := result.tool_results ++
                [{ type := "tool_result", tool_use_id := b.id, content := tool_result }]
              executed_tools := result.executed_tools ++ [b.name] }
          errors tr'
      | .exn e =>
        ({ result with
             failed := true
             error_message := some ("Tool execution failed: " ++ e) },
         errors ++ ["Round " ++ natStr roundNum ++ ": Tool execution failed: " ++ e],
         tr')
    else execToolsLoop o roundNum rest result errors tr

/-- `AIGenerator._execute_tools_for_round`: run the loop on the response's
blocks with a fresh `ToolExecutionResult`, threading the context's error
log and the trace. -/
def executeToolsForRound (o : Oracles) (resp : Response) (ctx : RoundContext)
    (tr : Trace) : ToolExecutionResult × RoundContext × Trace :=
  let t := execToolsLoop o ctx.current_round resp.content {} ctx.errors tr
  (t.1, { ctx with errors := t.2.1 }, t.2.2)

/-- `AIGenerator._update_context_with_tool_results`: append the assistant's
tool-use response, then the tool results (when nonempty) as one user
message. -/
def updateContext (ctx : RoundContext) (resp : Response)
    (tool_result : ToolExecutionResult) : RoundContext :=
  let ms := ctx.messages ++ [{ role := "assistant", content := .blocks resp.content }]
  let ms :=
    if tool_result.tool_results.isEmpty then ms
    else ms ++ [{ role := "user", content := .toolResults tool_result.tool_results }]
  { ctx with messages := ms }

/-- The tool-free finalize request `AIGenerator._handle_max_rounds_reached`
builds (no `tools`, no `tool_choice` key). -/
def finalizeRequest (ctx : RoundContext) : LLMRequest :=
  { messages := ctx.messages
    system := buildSystem ctx.conversation_history ++
      "\n\nProvide your final answer based on the tool results above."
    tools := none
    tool_choice := none }

/-- `AIGenerator._handle_max_rounds_reached`: one tool-free finalize call;
an exception from it (or the `content[0]` read) propagates uncaught. -/
def handleMaxRoundsReached (o : Oracles) (ctx : RoundContext) (tr : Trace) :
    CallResult String × RoundContext × Trace :=
  let tr' := { tr with llmRequests := tr.llmRequests ++ [finalizeRequest ctx] }
  match o.llm tr.llmRequests.length with
  | .ok r => (firstText r, ctx, tr')
  | .exn e => (.exn e, ctx, tr')

/-- The tool-free fallback request
`AIGenerator._handle_tool_execution_failure` builds: the system prompt is
augmented with a note naming the failure, and neither `tools` nor
`tool_choice` is present. -/
def fallbackRequest (tool_result : ToolExecutionResult) (ctx : RoundContext) :
    LLMRequest :=
  let error_context := "Tool execution failed in round " ++ natStr ctx.current_round ++
    ": " ++ pyOptStr tool_result.error_message
  { messages := ctx.messages
    system := buildSystem ctx.conversation_history ++
      "\n\nNote: " ++ error_context ++
      ". Please provide the best answer you can based on available information."
    tools := none
    tool_choice := none }

/-- `AIGenerator._handle_tool_execution_failure`: one tool-free fallback
call; any exception inside the guarded block (the call itself or the
`content[0]` read) yields the hard-coded apology naming the tool error. -/
def handleToolExecutionFailure (o : Oracles) (tool_result : ToolExecutionResult)
    (ctx : RoundContext) (tr : Trace) : CallResult String × RoundContext × Trace :=
  let tr' := { tr with llmRequests := tr.llmRequests ++ [fallbackRequest tool_result ctx] }
  let apology := "I encountered an error while processing your request: " ++
    pyOptStr tool_result.error_message
  match o.llm tr.llmRequests.length with
  | .ok r =>
    match r.content with
    | [] => (.ok apology, ctx, tr')
    | b :: _ => (.ok b.text, ctx, tr')
  | .exn _ => (.ok apology, ctx, tr')

/-- `AIGenerator._handle_round_error`: log the LLM-call error and return
the generic retry suggestion. -/
def handleRoundError (ctx : RoundContext) (tr : Trace) (e : String) :
    CallResult String × RoundContext × Trace :=
  (.ok "I encountered an error while processing your request. Please try rephrasing your question.",
   { ctx with errors := ctx.errors ++
       ["Error in round " ++ natStr ctx.current_round ++ ": " ++ e] },
   tr)

theorem executeToolsForRound_current_round (o : Oracles) (resp : Response)
    (ctx : RoundContext) (tr : Trace) :
    (executeToolsForRound o resp ctx tr).2.1.current_round = ctx.current_round := rfl

theorem updateContext_current_round (ctx : RoundContext) (resp : Response)
    (t : ToolExecutionResult) :
    (updateContext ctx resp t).current_round = ctx.current_round := by
  simp only [updateContext]

/-- `AIGenerator._process_rounds_recursive`. -/
def processRounds (o : Oracles) (ctx : RoundContext) (tr : Trace) (max_rounds : Nat) :
    CallResult String × RoundContext × Trace :=
  let ctx1 : RoundContext := { ctx with current_round := ctx.current_round + 1 }
  if h : ctx1.current_round > max_rounds then
    handleMaxRoundsReached o ctx1 tr
  else
    let er := executeRound o ctx1 tr
    match er.1 with
    | .exn e => handleRoundError ctx1 er.2 e
    | .ok resp =>
      if resp.stop_reason ≠ "tool_use" then
        (firstText resp, ctx1, er.2)
      else
        let step := executeToolsForRound o resp ctx1 er.2
        if step.1.failed then
          handleToolExecutionFailure o step.1 step.2.1 step.2.2
        else
          processRounds o (updateContext step.2.1 resp step.1) step.2.2 max_rounds
termination_by max_rounds + 1 - ctx.current_round
decreasing_by
  simp only [updateContext_current_round, executeToolsForRound_current_round]
  simp only [RoundContext.current_round] at h ⊢
  omega

/-- `AIGenerator._generate_simple_response`: one tool-free call; exceptions
propagate uncaught. -/
def generateSimpleResponse (o : Oracles) (query : String) (history : Option String) :
    CallResult String × Trace :=
  let req : LLMRequest :=
    { messages := [{ role := "user", content := .text query }]
      system := buildSystem history
      tools := none, tool_choice := none }
  (match o.llm 0 with
   | .ok r => firstText r
   | .exn e => .exn e,
   { llmRequests := [req], toolDispatches := [] })

/-- Python truthiness of the optional tools list (`None` and `[]` falsy). -/
def pyTruthyTools : Option (List ToolDef) → Bool
  | none => false
  | some l => !l.isEmpty

/-- `AIGenerator.generate_response`: the simple path when tools or the
manager are missing, otherwise the recursive round processing with
`max_rounds = 2`. -/
def generateResponse (o : Oracles) (query : String) (history : Option String)
    (tools : Option (List ToolDef)) (hasToolManager : Bool) :
    CallResult String × Trace :=
  if !(pyTruthyTools tools) || !hasToolManager then
    generateSimpleResponse o query history
  else
    let r := processRounds o (initContext query history (tools.getD [])) emptyTrace 2
    (r.1, r.2.2)

/-! ## Trace lemmas for the orchestrator's helpers -/

theorem executeRound_fst (o : Oracles) (ctx : RoundContext) (tr : Trace) :
    (executeRound o ctx tr).1 = o.llm tr.llmRequests.length := rfl

theorem executeRound_snd (o : Oracles) (ctx : RoundContext) (tr : Trace) :
    (executeRound o ctx tr).2 =
      { tr with llmRequests := tr.llmRequests ++ [roundRequest ctx] } := rfl

theorem roundRequest_tools (ctx : RoundContext) :
    (roundRequest ctx).tools = some ctx.tools := by
  unfold roundRequest
  by_cases h : ctx.current_round > 1 <;> simp [h]

theorem finalizeRequest_tools (ctx : RoundContext) :
    (finalizeRequest ctx).tools = none := rfl

theorem fallbackRequest_tools (t : ToolExecutionResult) (ctx : RoundContext) :
    (fallbackRequest t ctx).tools = none := rfl

theorem fallbackRequest_tool_choice (t : ToolExecutionResult) (ctx : RoundContext) :
    (fallbackRequest t ctx).tool_choice = none := rfl

theorem fallbackRequest_messages (t : ToolExecutionResult) (ctx : RoundContext) :
    (fallbackRequest t ctx).messages = ctx.messages := rfl

theorem execToolsLoop_llmRequests (o : Oracles) (rn : Nat) :
    ∀ (blocks : List ContentBlock) (result : ToolExecutionResult)
      (errors : List String) (tr : Trace),
      (execToolsLoop o rn blocks result errors tr).2.2.llmRequests = tr.llmRequests := by
  intro blocks
  induction blocks with
  | nil => intro result errors tr; rfl
  | cons b rest ih =>
    intro result errors tr
    by_cases hb : isToolUse b
    · simp only [execToolsLoop, if_pos hb]
      cases h : o.tool tr.toolDispatches.length with
      | ok s => exact ih _ _ _
      | exn e => rfl
    · simp only [execToolsLoop, if_neg hb]
      exact ih _ _ _

theorem executeToolsForRound_llmRequests (o : Oracles) (resp : Response)
    (ctx : RoundContext) (tr : Trace) :
    (executeToolsForRound o resp ctx tr).2.2.llmRequests = tr.llmRequests := by
  simp only [executeToolsForRound]
  exact execToolsLoop_llmRequests o ctx.current_round resp.content _ _ _

theorem executeToolsForRound_messages (o : Oracles) (resp : Response)
    (ctx : RoundContext) (tr : Trace) :
    (executeToolsForRound o resp ctx tr).2.1.messages = ctx.messages := rfl

theorem handleMaxRoundsReached_llmRequests (o : Oracles) (ctx : RoundContext)
    (tr : Trace) :
    (handleMaxRoundsReached o ctx tr).2.2.llmRequests =
      tr.llmRequests ++ [finalizeRequest ctx] := by
  unfold handleMaxRoundsReached
  cases o.llm tr.llmRequests.length <;> rfl

theorem handleMaxRoundsReached_toolDispatches (o : Oracles) (ctx : RoundContext)
    (tr : Trace) :
    (handleMaxRoundsReached o ctx tr).2.2.toolDispatches = tr.toolDispatches := by
  unfold handleMaxRoundsReached
  cases o.llm tr.llmRequests.length <;> rfl

theorem handleToolExecutionFailure_llmRequests (o : Oracles)
    (t : ToolExecutionResult) (ctx : RoundContext) (tr : Trace) :
    (handleToolExecutionFailure o t ctx tr).2.2.llmRequests =
      tr.llmRequests ++ [fallbackRequest t ctx] := by
  unfold handleToolExecutionFailure
  cases h : o.llm tr.llmRequests.length with
  | ok r => cases hc : r.content <;> simp [hc]
  | exn e => rfl

theorem handleToolExecutionFailure_toolDispatches (o : Oracles)
    (t : ToolExecutionResult) (ctx : RoundContext) (tr : Trace) :
    (handleToolExecutionFailure o t ctx tr).2.2.toolDispatches = tr.toolDispatches := by
  unfold handleToolExecutionFailure
  cases h : o.llm tr.llmRequests.length with
  | ok r => cases hc : r.content <;> simp [hc]
  | exn e => rfl

theorem handleRoundError_trace (ctx : RoundContext) (tr : Trace) (e : String) :
    (handleRoundError ctx tr e).2.2 = tr := rfl

/-! ## Step lemmas for `processRounds` -/

theorem processRounds_max (o : Oracles) (ctx : RoundContext) (tr : Trace) (m : Nat)
    (hm : ctx.current_round + 1 > m) :
    processRounds o ctx tr m =
      handleMaxRoundsReached o { ctx with current_round := ctx.current_round + 1 } tr := by
  rw [processRounds, dif_pos hm]

theorem processRounds_llm_exn (o : Oracles) (ctx : RoundContext) (tr : Trace) (m : Nat)
    (hm : ¬ (ctx.current_round + 1 > m)) (e : String)
    (hllm : o.llm tr.llmRequests.length = .exn e) :
    processRounds o ctx tr m =
      handleRoundError { ctx with current_round := ctx.current_round + 1 }
        { tr with llmRequests := tr.llmRequests ++
            [roundRequest { ctx with current_round := ctx.current_round + 1 }] } e := by
  rw [processRounds, dif_neg hm]
  simp only [executeRound, hllm]

theorem processRounds_no_tool_use (o : Oracles) (ctx : RoundContext) (tr : Trace)
    (m : Nat) (hm : ¬ (ctx.current_round + 1 > m)) (resp : Response)
    (hllm : o.llm tr.llmRequests.length = .ok resp)
    (hstop : resp.stop_reason ≠ "tool_use") :
    processRounds o ctx tr m =
      (firstText resp, { ctx with current_round := ctx.current_round + 1 },
       { tr with llmRequests := tr.llmRequests ++
           [roundRequest { ctx with current_round := ctx.current_round + 1 }] }) := by
  rw [processRounds, dif_neg hm]
  simp only [executeRound, hllm]
  rw [if_pos hstop]

theorem processRounds_tool_failed (o : Oracles) (ctx : RoundContext) (tr : Trace)
    (m : Nat) (hm : ¬ (ctx.current_round + 1 > m)) (resp : Response)
    (hllm : o.llm tr.llmRequests.length = .ok resp)
    (hstop : resp.stop_reason = "tool_use")
    (hfailed : (executeToolsForRound o resp
        { ctx with current_round := ctx.current_round + 1 }
        { tr with llmRequests := tr.llmRequests ++
            [roundRequest { ctx with current_round := ctx.current_round + 1 }] }).1.failed
      = true) :
    processRounds o ctx tr m =
      handleToolExecutionFailure o
        (executeToolsForRound o resp { ctx with current_round := ctx.current_round + 1 }
          { tr with llmRequests := tr.llmRequests ++
              [roundRequest { ctx with current_round := ctx.current_round + 1 }] }).1
        (executeToolsForRound o resp { ctx with current_round := ctx.current_round + 1 }
          { tr with llmRequests := tr.llmRequests ++
              [roundRequest { ctx with current_round := ctx.current_round + 1 }] }).2.1
        (executeToolsForRound o resp { ctx with current_round := ctx.current_round + 1 }
          { tr with llmRequests := tr.llmRequests ++
              [roundRequest { ctx with current_round := ctx.current_round + 1 }] }).2.2 := by
  rw [processRounds, dif_neg hm]
  simp only [executeRound, hllm]
  rw [if_neg (by simp [hstop])]
  rw [if_pos hfailed]

theorem processRounds_tool_ok (o : Oracles) (ctx : RoundContext) (tr : Trace)
    (m : Nat) (hm : ¬ (ctx.current_round + 1 > m)) (resp : Response)
    (hllm : o.llm tr.llmRequests.length = .ok resp)
    (hstop : resp.stop_reason = "tool_use")
    (hfailed : (executeToolsForRound o resp
        { ctx with current_round := ctx.current_round + 1 }
        { tr with llmRequests := tr.llmRequests ++
            [roundRequest { ctx with current_round := ctx.current_round + 1 }] }).1.failed
      = false) :
    processRounds o ctx tr m =
      processRounds o
        (updateContext
          (executeToolsForRound o resp { ctx with current_round := ctx.current_round + 1 }
            { tr with llmRequests := tr.llmRequests ++
                [roundRequest { ctx with current_round := ctx.current_round + 1 }] }).2.1
          resp
          (executeToolsForRound o resp { ctx with current_round := ctx.current_round + 1 }
            { tr with llmRequests := tr.llmRequests ++
                [roundRequest { ctx with current_round := ctx.current_round + 1 }] }).1)
        (executeToolsForRound o resp { ctx with current_round := ctx.current_round + 1 }
          { tr with llmRequests := tr.llmRequests ++
              [roundRequest { ctx with current_round := ctx.current_round + 1 }] }).2.2
        m := by
  rw [processRounds, dif_neg hm]
  simp only [executeRound, hllm]
  rw [if_neg (by simp [hstop])]
  rw [if_neg (by simp [hfailed])]

/-! ## The LLM-call budget -/

theorem length_filter_tools (l : List LLMRequest) :
    l.length = (l.filter fun r => r.tools.isSome).length +
      (l.filter fun r => r.tools.isNone).length := by
  induction l with
  | nil => rfl
  | cons a t ih =>
    cases htools : a.tools <;> simp [List.filter_cons, htools] <;> omega

/-- Core budget invariant: from a context in round `c`, the recursion adds
at most `m - c` tool-bearing requests and at most one tool-free request to
the trace. -/
theorem processRounds_budget (o : Oracles) (m : Nat) :
    ∀ (n : Nat) (ctx : RoundContext) (tr : Trace), m + 1 - ctx.current_round ≤ n →
      ((processRounds o ctx tr m).2.2.llmRequests.filter fun r => r.tools.isSome).length ≤
          (tr.llmRequests.filter fun r => r.tools.isSome).length + (m - ctx.current_round) ∧
      ((processRounds o ctx tr m).2.2.llmRequests.filter fun r => r.tools.isNone).length ≤
          (tr.llmRequests.filter fun r => r.tools.isNone).length + 1 := by
  intro n
  induction n with
  | zero =>
    intro ctx tr hn
    have hmax : ctx.current_round + 1 > m := by omega
    rw [processRounds_max o ctx tr m hmax]
    rw [handleMaxRoundsReached_llmRequests] at *
    constructor <;> simp [List.filter_append, finalizeRequest_tools]
  | succ n ih =>
    intro ctx tr hn
    by_cases hmax : ctx.current_round + 1 > m
    · rw [processRounds_max o ctx tr m hmax]
      rw [handleMaxRoundsReached_llmRequests]
      constructor <;> simp [List.filter_append, finalizeRequest_tools]
    · cases hllm : o.llm tr.llmRequests.length with
      | exn e =>
        rw [processRounds_llm_exn o ctx tr m hmax e hllm]
        rw [handleRoundError_trace]
        constructor <;> simp [List.filter_append, roundRequest_tools] <;> omega
      | ok resp =>
        by_cases hstop : resp.stop_reason = "tool_use"
        · by_cases hfailed : (executeToolsForRound o resp
              { ctx with current_round := ctx.current_round + 1 }
              { tr with llmRequests := tr.llmRequests ++
                  [roundRequest { ctx with current_round := ctx.current_round + 1 }] }).1.failed
            = true
          · rw [processRounds_tool_failed o ctx tr m hmax resp hllm hstop hfailed]
            rw [handleToolExecutionFailure_llmRequests, executeToolsForRound_llmRequests]
            constructor <;>
              simp [List.filter_append, roundRequest_tools, fallbackRequest_tools] <;>
              omega
          · rw [processRounds_tool_ok o ctx tr m hmax resp hllm hstop
              (Bool.not_eq_true _ ▸ hfailed)]
            have hround : (updateContext
                (executeToolsForRound o resp
                  { ctx with current_round := ctx.current_round + 1 }
                  { tr with llmRequests := tr.llmRequests ++
                      [roundRequest { ctx with current_round := ctx.current_round + 1 }] }).2.1
                resp
                (executeToolsForRound o resp
                  { ctx with current_round := ctx.current_round + 1 }
                  { tr with llmRequests := tr.llmRequests ++
                      [roundRequest { ctx with current_round := ctx.current_round + 1 }] }).1).current_round
                = ctx.current_round + 1 := by
              rw [updateContext_current_round, executeToolsForRound_current_round]
            have hih := ih (updateContext
                (executeToolsForRound o resp
                  { ctx with current_round := ctx.current_round + 1 }
                  { tr with llmRequests := tr.llmRequests ++
                      [roundRequest { ctx with current_round := ctx.current_round + 1 }] }).2.1
                resp
                (executeToolsForRound o resp
                  { ctx with current_round := ctx.current_round + 1 }
                  { tr with llmRequests := tr.llmRequests ++
                      [roundRequest { ctx with current_round := ctx.current_round + 1 }] }).1)
              (executeToolsForRound o resp
                  { ctx with current_round := ctx.current_round + 1 }
                  { tr with llmRequests := tr.llmRequests ++
                      [roundRequest { ctx with current_round := ctx.current_round + 1 }] }).2.2
              (by rw [hround]; omega)
            rw [executeToolsForRound_llmRequests] at hih
            rw [hround] at hih
            simp only [List.filter_append, List.length_append] at hih
            constructor <;>
              rcases hih with ⟨hih1, hih2⟩ <;>
              simp [roundRequest_tools, List.filter_cons] at hih1 hih2 ⊢ <;>
              omega
        · rw [processRounds_no_tool_use o ctx tr m hmax resp hllm hstop]
          constructor <;> simp [List.filter_append, roundRequest_tools] <;> omega

theorem initContext_current_round (q : String) (h : Option String) (ts : List ToolDef) :
    (initContext q h ts).current_round = 0 := rfl

/-- C1: a query processed with tools and a tool manager issues at most 3
LLM calls in total — at most 2 tool-permitted round calls (requests built
by `_execute_round`, which carry tool definitions) plus at most 1
tool-free finalize or fallback call (requests without tool definitions,
built by `_handle_max_rounds_reached` or
`_handle_tool_execution_failure`). -/
theorem generateResponse_at_most_three_llm_calls (o : Oracles) (query : String)
    (history : Option String) (ts : List ToolDef) (hts : ts ≠ []) :
    (generateResponse o query history (some ts) true).2.llmRequests.length ≤ 3 ∧
    ((generateResponse o query history (some ts) true).2.llmRequests.filter
        fun r => r.tools.isSome).length ≤ 2 ∧
    ((generateResponse o query history (some ts) true).2.llmRequests.filter
        fun r => r.tools.isNone).length ≤ 1 := by
  have h1 : pyTruthyTools (some ts) = true := by
    simp [pyTruthyTools, hts]
  have hcond : (!(pyTruthyTools (some ts)) || !true) = false := by rw [h1]; rfl
  simp only [generateResponse, hcond, Bool.false_eq_true, if_false]
  have hb := processRounds_budget o 2 3 (initContext query history ((some ts).getD []))
    emptyTrace (by rw [initContext_current_round])
  rcases hb with ⟨hb1, hb2⟩
  simp only [emptyTrace, initContext_current_round, List.filter_nil, List.length_nil,
    Nat.zero_add, Nat.sub_zero] at hb1 hb2
  have hlen := length_filter_tools
    (processRounds o (initContext query history ((some ts).getD [])) emptyTrace 2).2.2.llmRequests
  simp only [emptyTrace] at hlen ⊢
  exact ⟨by omega, hb1, hb2⟩

/-- C7: when the first response's stop condition is not tool-use, exactly
one LLM call is issued, no tool is executed, and the first content block's
text is the final answer. -/
theorem generateResponse_no_tool_use_single_call (o : Oracles) (query : String)
    (history : Option String) (ts : List ToolDef) (resp : Response)
    (b : ContentBlock) (rest : List ContentBlock) (hts : ts ≠ [])
    (hllm : o.llm 0 = .ok resp)
    (hstop : resp.stop_reason ≠ "tool_use")
    (hcontent : resp.content = b :: rest) :
    (generateResponse o query history (some ts) true).1 = .ok b.text ∧
    (generateResponse o query history (some ts) true).2.llmRequests.length = 1 ∧
    (generateResponse o query history (some ts) true).2.toolDispatches = [] := by
  have h1 : pyTruthyTools (some ts) = true := by
    simp [pyTruthyTools, hts]
  have hcond : (!(pyTruthyTools (some ts)) || !true) = false := by rw [h1]; rfl
  simp only [generateResponse, hcond, Bool.false_eq_true, if_false]
  rw [processRounds_no_tool_use o (initContext query history ((some ts).getD []))
    emptyTrace 2 (by rw [initContext_current_round]; omega) resp hllm hstop]
  refine ⟨?_, rfl, rfl⟩
  simp [firstText, hcontent]

/-! ## The tool-failure scenario -/

theorem handleToolExecutionFailure_fst_exn (o : Oracles) (t : ToolExecutionResult)
    (ctx : RoundContext) (tr : Trace) (f : String)
    (h : o.llm tr.llmRequests.length = .exn f) :
    (handleToolExecutionFailure o t ctx tr).1 =
      .ok ("I encountered an error while processing your request: " ++
        pyOptStr t.error_message) := by
  unfold handleToolExecutionFailure
  rw [h]

theorem handleToolExecutionFailure_fst_ok (o : Oracles) (t : ToolExecutionResult)
    (ctx : RoundContext) (tr : Trace) (r : Response) (b : ContentBlock)
    (bs : List ContentBlock)
    (h : o.llm tr.llmRequests.length = .ok r) (hc : r.content = b :: bs) :
    (handleToolExecutionFailure o t ctx tr).1 = .ok b.text := by
  unfold handleToolExecutionFailure
  rw [h]
  simp [hc]

/-- Fail-fast behaviour of the tool loop: when the `j`-th dispatched
tool-use block's execution raises (after `j` successful dispatches), the
loop stops right there — it dispatches exactly the first `j+1` tool-use
blocks — and marks the round failed with the descriptive message. -/
theorem execToolsLoop_fail (o : Oracles) (rn : Nat) (e : String) :
    ∀ (blocks : List ContentBlock) (j : Nat) (result : ToolExecutionResult)
      (errors : List String) (tr : Trace),
      (∀ i, i < j → ∃ s, o.tool (tr.toolDispatches.length + i) = .ok s) →
      o.tool (tr.toolDispatches.length + j) = .exn e →
      j < (blocks.filter isToolUse).length →
      ∃ ter : ToolExecutionResult,
        execToolsLoop o rn blocks result errors tr =
          (ter,
           errors ++ ["Round " ++ natStr rn ++ ": Tool execution failed: " ++ e],
           { tr with toolDispatches := tr.toolDispatches ++
               (((blocks.filter isToolUse).take (j + 1)).map fun b => (b.name, b.input)) }) ∧
        ter.failed = true ∧
        ter.error_message = some ("Tool execution failed: " ++ e) := by
  intro blocks
  induction blocks with
  | nil =>
    intro j result errors tr hok hfail hj
    simp at hj
  | cons b rest ih =>
    intro j result errors tr hok hfail hj
    by_cases hb : isToolUse b
    · rw [List.filter_cons, if_pos hb] at hj ⊢
      cases j with
      | zero =>
        have hf : o.tool tr.toolDispatches.length = .exn e := by
          have := hfail
          rwa [Nat.add_zero] at this
        simp only [execToolsLoop, if_pos hb, hf]
        exact ⟨_, rfl, rfl, rfl⟩
      | succ j' =>
        obtain ⟨s, hs⟩ := hok 0 (Nat.succ_pos j')
        have hs0 : o.tool tr.toolDispatches.length = .ok s := by
          rwa [Nat.add_zero] at hs
        simp only [execToolsLoop, if_pos hb, hs0]
        have hok' : ∀ i, i < j' →
            ∃ s', o.tool
              (({ tr with toolDispatches := tr.toolDispatches ++ [(b.name, b.input)] }
                : Trace).toolDispatches.length + i) = .ok s' := by
          intro i hi
          obtain ⟨s', hs'⟩ := hok (i + 1) (by omega)
          refine ⟨s', ?_⟩
          have harith : tr.toolDispatches.length + (i + 1) =
              (tr.toolDispatches ++ [(b.name, b.input)]).length + i := by
            simp
            omega
          rwa [harith] at hs'
        have hfail' : o.tool
            (({ tr with toolDispatches := tr.toolDispatches ++ [(b.name, b.input)] }
              : Trace).toolDispatches.length + j') = .exn e := by
          have harith : tr.toolDispatches.length + (j' + 1) =
              (tr.toolDispatches ++ [(b.name, b.input)]).length + j' := by
            simp
            omega
          rwa [harith] at hfail
        have hj' : j' < (rest.filter isToolUse).length := by
          simp at hj
          omega
        obtain ⟨ter, heq, h1, h2⟩ := ih j'
          { result with
              tool_results := result.tool_results ++
                [{ type := "tool_result", tool_use_id := b.id, content := s }]
              executed_tools := result.executed_tools ++ [b.name] }
          errors
          { tr with toolDispatches := tr.toolDispatches ++ [(b.name, b.input)] }
          hok' hfail' hj'
        rw [heq]
        refine ⟨ter, ?_, h1, h2⟩
        simp [List.take_succ_cons, List.append_assoc]
    · rw [List.filter_cons, if_neg hb] at hj ⊢
      simp only [execToolsLoop, if_neg hb]
      exact ih j result errors tr hok hfail hj

/-- Composition of the failure scenario through one unfolding of
`processRounds`: the failing round terminates the recursion in
`_handle_tool_execution_failure`, with the exact context and trace shown. -/
theorem processRounds_failure_master (o : Oracles) (ctx : RoundContext) (tr : Trace)
    (m j : Nat) (resp : Response) (e : String)
    (hm : ctx.current_round + 1 ≤ m)
    (hllm : o.llm tr.llmRequests.length = .ok resp)
    (hstop : resp.stop_reason = "tool_use")
    (hok : ∀ i, i < j → ∃ s, o.tool (tr.toolDispatches.length + i) = .ok s)
    (hfail : o.tool (tr.toolDispatches.length + j) = .exn e)
    (hj : j < (resp.content.filter isToolUse).length) :
    ∃ ter : ToolExecutionResult,
      (executeToolsForRound o resp { ctx with current_round := ctx.current_round + 1 }
        { tr with llmRequests := tr.llmRequests ++
            [roundRequest { ctx with current_round := ctx.current_round + 1 }] }).1 = ter ∧
      ter.failed = true ∧
      ter.error_message = some ("Tool execution failed: " ++ e) ∧
      processRounds o ctx tr m =
        handleToolExecutionFailure o ter
          { ctx with
              current_round := ctx.current_round + 1
              errors := ctx.errors ++
                ["Round " ++ natStr (ctx.current_round + 1) ++
                  ": Tool execution failed: " ++ e] }
          { tr with
              llmRequests := tr.llmRequests ++
                [roundRequest { ctx with current_round := ctx.current_round + 1 }],
              toolDispatches := tr.toolDispatches ++
                (((resp.content.filter isToolUse).take (j + 1)).map
                  fun b => (b.name, b.input)) } := by
  obtain ⟨ter, heq, h1, h2⟩ := execToolsLoop_fail o (ctx.current_round + 1) e
    resp.content j {} ctx.errors
    { tr with llmRequests := tr.llmRequests ++
        [roundRequest { ctx with current_round := ctx.current_round + 1 }] }
    hok hfail hj
  have hstep : executeToolsForRound o resp
      { ctx with current_round := ctx.current_round + 1 }
      { tr with llmRequests := tr.llmRequests ++
          [roundRequest { ctx with current_round := ctx.current_round + 1 }] } =
      (ter,
       { ctx with
           current_round := ctx.current_round + 1
           errors := ctx.errors ++
             ["Round " ++ natStr (ctx.current_round + 1) ++
               ": Tool execution failed: " ++ e] },
       { tr with
           llmRequests := tr.llmRequests ++
             [roundRequest { ctx with current_round := ctx.current_round + 1 }],
           toolDispatches := tr.toolDispatches ++
             (((resp.content.filter isToolUse).take (j + 1)).map
               fun b => (b.name, b.input)) }) := by
    simp only [executeToolsForRound, heq]
  refine ⟨ter, by rw [hstep], h1, h2, ?_⟩
  rw [processRounds_tool_failed o ctx tr m (by omega) resp hllm hstop
    (by rw [hstep]; exact h1)]
  rw [hstep]

/-- C2: when the `j`-th dispatched tool call of a round raises, no tool
call after it is ever dispatched, the round's `ToolExecutionResult` is
marked failed with the descriptive message, exactly one fallback LLM call
follows the round's call, and if that fallback call itself throws the
hard-coded apology naming the original tool error is returned. -/
theorem tool_failure_fail_fast_and_single_fallback (o : Oracles) (ctx : RoundContext)
    (tr : Trace) (m j : Nat) (resp : Response) (e : String)
    (hm : ctx.current_round + 1 ≤ m)
    (hllm : o.llm tr.llmRequests.length = .ok resp)
    (hstop : resp.stop_reason = "tool_use")
    (hok : ∀ i, i < j → ∃ s, o.tool (tr.toolDispatches.length + i) = .ok s)
    (hfail : o.tool (tr.toolDispatches.length + j) = .exn e)
    (hj : j < (resp.content.filter isToolUse).length) :
    ∃ (ter : ToolExecutionResult) (freq : LLMRequest),
      (executeToolsForRound o resp { ctx with current_round := ctx.current_round + 1 }
        { tr with llmRequests := tr.llmRequests ++
            [roundRequest { ctx with current_round := ctx.current_round + 1 }] }).1 = ter ∧
      ter.failed = true ∧
      ter.error_message = some ("Tool execution failed: " ++ e) ∧
      (processRounds o ctx tr m).2.2.toolDispatches =
        tr.toolDispatches ++
          (((resp.content.filter isToolUse).take (j + 1)).map
            fun b => (b.name, b.input)) ∧
      (processRounds o ctx tr m).2.2.llmRequests =
        tr.llmRequests ++
          [roundRequest { ctx with current_round := ctx.current_round + 1 }, freq] ∧
      (∀ f, o.llm (tr.llmRequests.length + 1) = .exn f →
        (processRounds o ctx tr m).1 =
          .ok ("I encountered an error while processing your request: " ++
            ("Tool execution failed: " ++ e))) := by
  obtain ⟨ter, hstep1, h1, h2, hrun⟩ :=
    processRounds_failure_master o ctx tr m j resp e hm hllm hstop hok hfail hj
  refine ⟨ter, fallbackRequest ter
    { ctx with
        current_round := ctx.current_round + 1
        errors := ctx.errors ++
          ["Round " ++ natStr (ctx.current_round + 1) ++
            ": Tool execution failed: " ++ e] }, hstep1, h1, h2, ?_, ?_, ?_⟩
  · rw [hrun, handleToolExecutionFailure_toolDispatches]
  · rw [hrun, handleToolExecutionFailure_llmRequests]
    simp [List.append_assoc]
  · intro f hf
    rw [hrun]
    rw [handleToolExecutionFailure_fst_exn o ter _ _ f (by simpa using hf)]
    rw [h2]
    rfl

/-- C3: when a round's tool execution fails, the transcript handed to the
fallback LLM call is exactly the transcript as accumulated before that
round — neither the failing round's assistant tool-use response nor any of
its tool-result messages is appended. -/
theorem tool_failure_fallback_uses_prior_transcript (o : Oracles) (ctx : RoundContext)
    (tr : Trace) (m j : Nat) (resp : Response) (e : String)
    (hm : ctx.current_round + 1 ≤ m)
    (hllm : o.llm tr.llmRequests.length = .ok resp)
    (hstop : resp.stop_reason = "tool_use")
    (hok : ∀ i, i < j → ∃ s, o.tool (tr.toolDispatches.length + i) = .ok s)
    (hfail : o.tool (tr.toolDispatches.length + j) = .exn e)
    (hj : j < (resp.content.filter isToolUse).length) :
    ∃ (ter : ToolExecutionResult) (ctx2 : RoundContext),
      (processRounds o ctx tr m).2.2.llmRequests =
        tr.llmRequests ++
          [roundRequest { ctx with current_round := ctx.current_round + 1 },
           fallbackRequest ter ctx2] ∧
      (fallbackRequest ter ctx2).messages = ctx.messages := by
  obtain ⟨ter, hstep1, h1, h2, hrun⟩ :=
    processRounds_failure_master o ctx tr m j resp e hm hllm hstop hok hfail hj
  refine ⟨ter,
    { ctx with
        current_round := ctx.current_round + 1
        errors := ctx.errors ++
          ["Round " ++ natStr (ctx.current_round + 1) ++
            ": Tool execution failed: " ++ e] }, ?_, rfl⟩
  rw [hrun, handleToolExecutionFailure_llmRequests]
  simp [List.append_assoc]

/-- C8: once a tool call has failed, no tool can run again for the query —
the fallback request carries no tool definitions and no tool-choice field,
the dispatch trace never grows past the failing round, and the fallback
response's first text is returned as the final answer whatever its stop
reason is (its content is never inspected for tool-use blocks). -/
theorem tool_failure_disables_tools (o : Oracles) (ctx : RoundContext)
    (tr : Trace) (m j : Nat) (resp : Response) (e : String)
    (hm : ctx.current_round + 1 ≤ m)
    (hllm : o.llm tr.llmRequests.length = .ok resp)
    (hstop : resp.stop_reason = "tool_use")
    (hok : ∀ i, i < j → ∃ s, o.tool (tr.toolDispatches.length + i) = .ok s)
    (hfail : o.tool (tr.toolDispatches.length + j) = .exn e)
    (hj : j < (resp.content.filter isToolUse).length) :
    ∃ (ter : ToolExecutionResult) (ctx2 : RoundContext),
      (processRounds o ctx tr m).2.2.llmRequests =
        tr.llmRequests ++
          [roundRequest { ctx with current_round := ctx.current_round + 1 },
           fallbackRequest ter ctx2] ∧
      (fallbackRequest ter ctx2).tools = none ∧
      (fallbackRequest ter ctx2).tool_choice = none ∧
      (processRounds o ctx tr m).2.2.toolDispatches =
        tr.toolDispatches ++
          (((resp.content.filter isToolUse).take (j + 1)).map
            fun b => (b.name, b.input)) ∧
      (∀ (resp2 : Response) (b : ContentBlock) (bs : List ContentBlock),
        o.llm (tr.llmRequests.length + 1) = .ok resp2 → resp2.content = b :: bs →
        (processRounds o ctx tr m).1 = .ok b.text) := by
  obtain ⟨ter, hstep1, h1, h2, hrun⟩ :=
    processRounds_failure_master o ctx tr m j resp e hm hllm hstop hok hfail hj
  refine ⟨ter,
    { ctx with
        current_round := ctx.current_round + 1
        errors := ctx.errors ++
          ["Round " ++ natStr (ctx.current_round + 1) ++
            ": Tool execution failed: " ++ e] }, ?_, rfl, rfl, ?_, ?_⟩
  · rw [hrun, handleToolExecutionFailure_llmRequests]
    simp [List.append_assoc]
  · rw [hrun, handleToolExecutionFailure_toolDispatches]
  · intro resp2 b bs hresp2 hc
    rw [hrun]
    exact handleToolExecutionFailure_fst_ok o ter _ _ resp2 b bs (by simpa using hresp2) hc

/-! ## Alignment of tool results with executed tools (C9) -/

/-- Shape invariant of the tool loop: it processes some prefix of the
response's tool-use blocks, and appends, in block order, one name to
`executed_tools` and one payload (tagged with that very block's id) to
`tool_results` per processed block. -/
theorem execToolsLoop_shape (o : Oracles) (rn : Nat) :
    ∀ (blocks : List ContentBlock) (result : ToolExecutionResult)
      (errors : List String) (tr : Trace),
      ∃ k, k ≤ (blocks.filter isToolUse).length ∧
        (execToolsLoop o rn blocks result errors tr).1.executed_tools =
          result.executed_tools ++
            (((blocks.filter isToolUse).take k).map fun b => b.name) ∧
        (execToolsLoop o rn blocks result errors tr).1.tool_results.map
            (fun p => p.tool_use_id) =
          result.tool_results.map (fun p => p.tool_use_id) ++
            (((blocks.filter isToolUse).take k).map fun b => b.id) := by
  intro blocks
  induction blocks with
  | nil =>
    intro result errors tr
    exact ⟨0, by simp, by simp [execToolsLoop], by simp [execToolsLoop]⟩
  | cons b rest ih =>
    intro result errors tr
    by_cases hb : isToolUse b
    · rw [List.filter_cons, if_pos hb]
      simp only [execToolsLoop, if_pos hb]
      cases ht : o.tool tr.toolDispatches.length with
      | ok s =>
        obtain ⟨k, hk, he, hr⟩ := ih
          { result with
              tool_results := result.tool_results ++
                [{ type := "tool_result", tool_use_id := b.id, content := s }]
              executed_tools := result.executed_tools ++ [b.name] }
          errors
          { tr with toolDispatches := tr.toolDispatches ++ [(b.name, b.input)] }
        refine ⟨k + 1, by simp; omega, ?_, ?_⟩
        · rw [he]
          simp [List.take_succ_cons, List.append_assoc]
        · rw [hr]
          simp [List.take_succ_cons, List.append_assoc]
      | exn e2 =>
        exact ⟨0, by simp, by simp, by simp⟩
    · rw [List.filter_cons, if_neg hb]
      simp only [execToolsLoop, if_neg hb]
      exact ih result errors tr

/-- C9: every `ToolExecutionResult` produced by `_execute_tools_for_round`
— failed or not — pairs `tool_results` and `executed_tools` one to one:
both arise from the same prefix of the response's tool-use blocks, in
block order, the i-th result carrying the id of the block whose name is
the i-th executed tool, so the two lists have equal length. -/
theorem tool_results_align_with_executed_tools (o : Oracles) (resp : Response)
    (ctx : RoundContext) (tr : Trace) :
    ∃ k, k ≤ (resp.content.filter isToolUse).length ∧
      (executeToolsForRound o resp ctx tr).1.executed_tools =
        ((resp.content.filter isToolUse).take k).map (fun b => b.name) ∧
      (executeToolsForRound o resp ctx tr).1.tool_results.map (fun p => p.tool_use_id) =
        ((resp.content.filter isToolUse).take k).map (fun b => b.id) ∧
      (executeToolsForRound o resp ctx tr).1.tool_results.length =
        (executeToolsForRound o resp ctx tr).1.executed_tools.length := by
  obtain ⟨k, hk, he, hr⟩ :=
    execToolsLoop_shape o ctx.current_round resp.content {} ctx.errors tr
  have he' : (executeToolsForRound o resp ctx tr).1.executed_tools =
      ((resp.content.filter isToolUse).take k).map (fun b => b.name) := by
    simpa [executeToolsForRound] using he
  have hr' : (executeToolsForRound o resp ctx tr).1.tool_results.map
      (fun p => p.tool_use_id) =
      ((resp.content.filter isToolUse).take k).map (fun b => b.id) := by
    simpa [executeToolsForRound] using hr
  refine ⟨k, hk, he', hr', ?_⟩
  have h1 := congrArg List.length he'
  have h2 := congrArg List.length hr'
  simp only [List.length_map] at h1 h2
  omega

/-! ## ToolManager registry semantics (C10) -/

theorem dictGet_dictInsert_self {α : Type} (l : List (String × α)) (k : String) (v : α) :
    dictGet (dictInsert l k v) k = some v := by
  induction l with
  | nil => simp [dictInsert, dictGet]
  | cons p rest ih =>
    obtain ⟨a, b⟩ := p
    by_cases h : a = k <;> simp [dictInsert, dictGet, h, ih]

theorem dictInsert_keys {α : Type} (l : List (String × α)) (k : String) (v : α) :
    (dictInsert l k v).map Prod.fst =
      if k ∈ l.map Prod.fst then l.map Prod.fst else l.map Prod.fst ++ [k] := by
  induction l with
  | nil => simp [dictInsert]
  | cons p rest ih =>
    obtain ⟨a, b⟩ := p
    by_cases h : a = k
    · simp [dictInsert, h]
    · by_cases hmem : k ∈ rest.map Prod.fst <;>
        simp [dictInsert, h, ih, hmem, Ne.symm h]

theorem dictInsert_keys_nodup {α : Type} (l : List (String × α)) (k : String) (v : α)
    (h : (l.map Prod.fst).Nodup) : ((dictInsert l k v).map Prod.fst).Nodup := by
  rw [dictInsert_keys]
  by_cases hmem : k ∈ l.map Prod.fst
  · rwa [if_pos hmem]
  · rw [if_neg hmem]
    simp [List.nodup_append, h, hmem]

theorem mem_dictInsert_keys {α : Type} (l : List (String × α)) (k : String) (v : α) :
    k ∈ (dictInsert l k v).map Prod.fst := by
  rw [dictInsert_keys]
  by_cases hmem : k ∈ l.map Prod.fst
  · rwa [if_pos hmem]
  · rw [if_neg hmem]
    simp

theorem dictInsert_forall {α : Type} (P : String × α → Prop) :
    ∀ (l : List (String × α)) (k : String) (v : α),
      (∀ p ∈ l, P p) → P (k, v) → ∀ p ∈ dictInsert l k v, P p := by
  intro l
  induction l with
  | nil =>
    intro k v _ hkv p hp
    simp [dictInsert] at hp
    rwa [hp]
  | cons q rest ih =>
    intro k v hl hkv p hp
    obtain ⟨a, b⟩ := q
    by_cases h : a = k
    · rw [dictInsert, if_pos h] at hp
      rcases List.mem_cons.mp hp with rfl | hp
      · exact hkv
      · exact hl p (List.mem_cons_of_mem _ hp)
    · rw [dictInsert, if_neg h] at hp
      rcases List.mem_cons.mp hp with rfl | hp
      · exact hl (a, b) (List.mem_cons_self _ _)
      · exact ih k v (fun q hq => hl q (List.mem_cons_of_mem _ hq)) hkv p hp

theorem filter_key_nil {α : Type} :
    ∀ (l : List (String × α)) (n : String), n ∉ l.map Prod.fst →
      (l.filter fun p => p.1 = n) = [] := by
  intro l
  induction l with
  | nil => intro n _; rfl
  | cons q rest ih =>
    intro n hn
    obtain ⟨a, b⟩ := q
    simp only [List.map_cons, List.mem_cons] at hn
    push_neg at hn
    rw [List.filter_cons, if_neg (by simpa using Ne.symm hn.1)]
    exact ih n hn.2

theorem filter_key_length {α : Type} :
    ∀ (l : List (String × α)) (n : String), (l.map Prod.fst).Nodup →
      n ∈ l.map Prod.fst → (l.filter fun p => p.1 = n).length = 1 := by
  intro l
  induction l with
  | nil => intro n _ hmem; simp at hmem
  | cons q rest ih =>
    intro n hnd hmem
    obtain ⟨a, b⟩ := q
    simp only [List.map_cons, List.nodup_cons] at hnd
    rcases List.mem_cons.mp hmem with heq | hmem'
    · rw [List.filter_cons, if_pos (by simpa using heq.symm)]
      rw [filter_key_nil rest n (heq ▸ hnd.1)]
      rfl
    · have hne : a ≠ n := by
        intro hcontr
        exact hnd.1 (hcontr ▸ hmem')
      rw [List.filter_cons, if_neg (by simpa using hne)]
      exact ih n hnd.2 hmem'

theorem dictGet_of_mem_nodup {α : Type} :
    ∀ (l : List (String × α)) (k : String) (v : α), (l.map Prod.fst).Nodup →
      (k, v) ∈ l → dictGet l k = some v := by
  intro l
  induction l with
  | nil => intro k v _ hmem; simp at hmem
  | cons q rest ih =>
    intro k v hnd hmem
    obtain ⟨a, b⟩ := q
    simp only [List.map_cons, List.nodup_cons] at hnd
    rcases List.mem_cons.mp hmem with heq | hmem'
    · obtain ⟨rfl, rfl⟩ := Prod.mk.inj heq.symm
      simp [dictGet]
    · have hne : a ≠ k := by
        intro hcontr
        subst hcontr
        exact hnd.1 (by exact List.mem_map_of_mem Prod.fst hmem')
      rw [dictGet, if_neg hne]
      exact ih k v hnd.2 hmem'

theorem filter_map_comm {α β : Type} (f : α → β) (p : β → Bool) :
    ∀ l : List α, (l.map f).filter p = (l.filter fun a => p (f a)).map f := by
  intro l
  induction l with
  | nil => rfl
  | cons a rest ih =>
    simp only [List.map_cons, List.filter_cons]
    cases h : p (f a) <;> simp [h, ih]

/-- C10: registering two tools whose definitions carry the same (truthy)
name leaves exactly one registry entry for that name — the second
registration silently replaces the first, raises nothing, dispatch goes to
the most recently registered tool, and the definition list advertises its
definition exactly once. -/
theorem register_same_name_replaces (m : ToolManager) (t1 t2 : ToolObj) (n : String)
    (h1 : t1.get_tool_definition.name = some n)
    (h2 : t2.get_tool_definition.name = some n)
    (hn : n ≠ "")
    (hkeys : (m.tools.map Prod.fst).Nodup)
    (hwf : ∀ p ∈ m.tools, p.2.get_tool_definition.name = some p.1) :
    ∃ m1 m2 : ToolManager,
      m.register_tool t1 = .ok m1 ∧
      m1.register_tool t2 = .ok m2 ∧
      (m2.tools.filter fun p => p.1 = n).length = 1 ∧
      dictGet m2.tools n = some t2 ∧
      (∀ kwargs, m2.execute_tool n kwargs = t2.run kwargs) ∧
      (m2.get_tool_definitions.filter fun d => d = t2.get_tool_definition).length = 1 := by
  have hne : n.isEmpty = false := by
    cases he : n.isEmpty
    · rfl
    · exact absurd ((String.isEmpty_iff n).mp he) hn
  have htr : pyTruthyStr (some n) = true := by simp [pyTruthyStr, hne]
  refine ⟨{ tools := dictInsert m.tools n t1 }, { tools := dictInsert (dictInsert m.tools n t1) n t2 }, ?_, ?_, ?_, ?_, ?_, ?_⟩
  · unfold ToolManager.register_tool
    rw [h1]
    simp [htr]
  · unfold ToolManager.register_tool
    rw [h2]
    simp [htr]
  · exact filter_key_length _ n
      (dictInsert_keys_nodup _ n t2 (dictInsert_keys_nodup _ n t1 hkeys))
      (mem_dictInsert_keys _ n t2)
  · exact dictGet_dictInsert_self _ n t2
  · intro kwargs
    unfold ToolManager.execute_tool
    rw [dictGet_dictInsert_self _ n t2]
  · have hnd2 : ((dictInsert (dictInsert m.tools n t1) n t2).map Prod.fst).Nodup :=
      dictInsert_keys_nodup _ n t2 (dictInsert_keys_nodup _ n t1 hkeys)
    have hwf2 : ∀ p ∈ dictInsert (dictInsert m.tools n t1) n t2,
        p.2.get_tool_definition.name = some p.1 := by
      refine dictInsert_forall _ _ n t2 ?_ h2
      exact dictInsert_forall _ _ n t1 hwf h1
    have huniq : ∀ p ∈ dictInsert (dictInsert m.tools n t1) n t2,
        p.1 = n → p.2 = t2 := by
      intro p hp hpn
      have := dictGet_of_mem_nodup _ p.1 p.2 hnd2 (by simpa using hp)
      rw [hpn, dictGet_dictInsert_self _ n t2] at this
      exact (Option.some.inj this).symm
    unfold ToolManager.get_tool_definitions
    rw [filter_map_comm]
    rw [List.length_map]
    have hcongr : (dictInsert (dictInsert m.tools n t1) n t2).filter
        (fun p => p.2.get_tool_definition = t2.get_tool_definition) =
        (dictInsert (dictInsert m.tools n t1) n t2).filter (fun p => p.1 = n) := by
      apply List.filter_congr
      intro p hp
      apply decide_eq_decide.mpr
      constructor
      · intro hdef
        have := congrArg ToolDef.name hdef
        rw [hwf2 p hp, h2] at this
        exact Option.some.inj this
      · intro hpn
        rw [huniq p hp hpn]
    rw [hcongr]
    exact filter_key_length _ n hnd2 (mem_dictInsert_keys _ n t2)

/-! ## CourseSearchTool empty-result message (C5) -/

/-- A store whose search always returns an empty, error-free result. -/
def emptyStore : VectorStore :=
  { search := fun _ _ _ => { documents := [], metadata := [], error := none }
    get_lesson_link := fun _ _ => none }

/-- C5 counterexample: with `course_name = "X"` and `lesson_number = 0`
supplied, the code returns `"No relevant content found in course 'X'."` —
it appends a final period the claimed format omits, and the Python-falsy
lesson number `0`, though supplied, produces no `" in lesson 0"` suffix —
so the output is not the claimed `"No relevant content found"` followed by
the two suffixes. -/
theorem empty_result_message_counterexample :
    (CourseSearchTool.execute emptyStore [] "q" (some "X") (some 0)).1 =
      "No relevant content found in course 'X'." ∧
    (CourseSearchTool.execute emptyStore [] "q" (some "X") (some 0)).1 ≠
      "No relevant content found" ++ " in course 'X'" ++ " in lesson 0" := by
  constructor
  · decide
  · decide

/-- C5 amended: for an error-free, empty search result the reply is
`"No relevant content found"`, suffixed with `" in course '<name>'"` when
a Python-truthy (non-empty) course name was supplied and then with
`" in lesson <n>"` when a Python-truthy (nonzero) lesson number was
supplied — course suffix first — and terminated by a period. -/
theorem empty_result_message_amended (store : VectorStore) (prior : List SourceEntry)
    (query : String) (course_name : Option String) (lesson_number : Option Int)
    (herr : (store.search query course_name lesson_number).error = none)
    (hemp : (store.search query course_name lesson_number).is_empty = true) :
    (CourseSearchTool.execute store prior query course_name lesson_number).1 =
      "No relevant content found" ++
        (if pyTruthyStr course_name then
          " in course '" ++ course_name.getD "" ++ "'" else "") ++
        (if pyTruthyInt lesson_number then
          " in lesson " ++ intStr (lesson_number.getD 0) else "") ++ "." := by
  rcases hsr : store.search query course_name lesson_number with ⟨docs, metas, err⟩
  rw [hsr] at herr hemp
  simp only at herr
  subst herr
  simp only [SearchResults.is_empty] at hemp
  simp only [CourseSearchTool.execute, hsr, SearchResults.is_empty, hemp, if_true]
  simp [String.append_assoc]

/-- C5 amended witness at a concrete input: both filters supplied and
truthy. -/
theorem empty_result_message_amended_witness :
    (emptyStore.search "q" (some "X") (some 3)).error = none ∧
    (emptyStore.search "q" (some "X") (some 3)).is_empty = true ∧
    (CourseSearchTool.execute emptyStore [] "q" (some "X") (some 3)).1 =
      "No relevant content found" ++
        (if pyTruthyStr (some "X") then
          " in course '" ++ (some "X").getD "" ++ "'" else "") ++
        (if pyTruthyInt (some 3) then
          " in lesson " ++ intStr ((some (3 : Int)).getD 0) else "") ++ "." :=
  ⟨rfl, rfl, empty_result_message_amended emptyStore [] "q" (some "X") (some 3) rfl rfl⟩

/-! ## CourseOutlineTool error handling (C6) -/

/-- C6: every raising step inside `CourseOutlineTool.execute`'s guarded
block — the catalog fetch, or the parse of the serialized lessons array —
turns into the string `"Error retrieving course outline: <message>"`; the
function is total (every path returns a string), so no exception escapes
to the caller. -/
theorem outline_errors_to_string (store : OutlineStore)
    (jsonLoads : String → CallResult (List LessonRec)) (course_title : String) :
    (∀ resolved e, store._resolve_course_name course_title = some resolved →
      resolved ≠ "" → store.catalog_get [resolved] = .exn e →
      CourseOutlineTool.execute store jsonLoads course_title =
        "Error retrieving course outline: " ++ e) ∧
    (∀ resolved res meta rest e,
      store._resolve_course_name course_title = some resolved →
      resolved ≠ "" → store.catalog_get [resolved] = .ok (some res) →
      res.metadatas = meta :: rest →
      jsonLoads (meta.lessons_json.getD "[]") = .exn e →
      CourseOutlineTool.execute store jsonLoads course_title =
        "Error retrieving course outline: " ++ e) := by
  constructor
  · intro resolved e hres hne hcat
    have hne2 : resolved.isEmpty = false := by
      cases he : resolved.isEmpty
      · rfl
      · exact absurd ((String.isEmpty_iff resolved).mp he) hne
    unfold CourseOutlineTool.execute
    rw [hres]
    simp only [Option.getD_some, pyTruthyStr, hne2, Bool.not_false, Bool.not_true,
      Bool.false_eq_true, if_false, hcat]
  · intro resolved res meta rest e hres hne hcat hmeta hjson
    have hne2 : resolved.isEmpty = false := by
      cases he : resolved.isEmpty
      · rfl
      · exact absurd ((String.isEmpty_iff resolved).mp he) hne
    unfold CourseOutlineTool.execute
    rw [hres]
    simp only [Option.getD_some, pyTruthyStr, hne2, Bool.not_false, Bool.not_true,
      Bool.false_eq_true, if_false, hcat, hmeta, hjson]

/-- A store whose catalog fetch always raises. -/
def outlineStoreExn : OutlineStore :=
  { _resolve_course_name := fun _ => some "RAG Course"
    catalog_get := fun _ => .exn "boom" }

/-- A lessons-array parse that always succeeds with no lessons. -/
def jsonLoadsNil : String → CallResult (List LessonRec) := fun _ => .ok []

/-- C6 witness: a raising catalog fetch yields the wrapped error string. -/
theorem outline_errors_to_string_witness :
    outlineStoreExn._resolve_course_name "RAG" = some "RAG Course" ∧
    CourseOutlineTool.execute outlineStoreExn jsonLoadsNil "RAG" =
      "Error retrieving course outline: " ++ "boom" :=
  ⟨rfl, (outline_errors_to_string outlineStoreExn jsonLoadsNil "RAG").1
    "RAG Course" "boom" rfl (by decide) rfl⟩

/-! ## Provenance deduplication (C4)

The dedup key `f"{course_title}|{lesson_num}"` is injective in the
`(course_title, lesson_number)` pair: the rendering of `lesson_num` never
contains `'|'`, so the last pipe of the key splits it unambiguously. -/

theorem append_pipe_inj :
    ∀ (l1 r1 l2 r2 : List Char),
      l1 ++ '|' :: r1 = l2 ++ '|' :: r2 → '|' ∉ r1 → '|' ∉ r2 →
      l1 = l2 ∧ r1 = r2 := by
  intro l1
  induction l1 with
  | nil =>
    intro r1 l2 r2 h h1 h2
    cases l2 with
    | nil => simpa using h
    | cons a t =>
      exfalso
      simp only [List.nil_append, List.cons_append] at h
      obtain ⟨ha, hr⟩ := List.cons.inj h
      apply h1
      rw [hr]
      simp
  | cons a t ih =>
    intro r1 l2 r2 h h1 h2
    cases l2 with
    | nil =>
      exfalso
      simp only [List.nil_append, List.cons_append] at h
      obtain ⟨ha, hr⟩ := List.cons.inj h
      apply h2
      rw [← hr]
      simp
    | cons b s =>
      simp only [List.cons_append] at h
      obtain ⟨hab, hrest⟩ := List.cons.inj h
      obtain ⟨hl, hr⟩ := ih r1 s r2 hrest h1 h2
      exact ⟨by rw [hab, hl], hr⟩

theorem source_key_injective {c1 c2 : String} {l1 l2 : Option Int}
    (h : source_key c1 l1 = source_key c2 l2) : c1 = c2 ∧ l1 = l2 := by
  have hd := congrArg String.data h
  have hpipe : ("|" : String).data = ['|'] := rfl
  simp only [source_key, pyStr, String.data_append, hpipe] at hd
  rw [List.append_assoc, List.append_assoc, List.singleton_append,
    List.singleton_append] at hd
  have hmk : ∀ l : List Char, (String.mk l).data = l := fun _ => rfl
  rw [hmk, hmk] at hd
  obtain ⟨hc, hl⟩ :=
    append_pipe_inj c1.data (pyStrOptInt l1) c2.data (pyStrOptInt l2) hd
      pyStrOptInt_no_pipe pyStrOptInt_no_pipe
  exact ⟨String.ext hc, pyStrOptInt_injective hl⟩

/-- First-occurrence deduplication: keep an element when it has not been
seen before. -/
def dedupFirstAux {α : Type} [DecidableEq α] (seen : List α) : List α → List α
  | [] => []
  | a :: l =>
    if a ∈ seen then dedupFirstAux seen l else a :: dedupFirstAux (a :: seen) l

/-- The distinct elements of a list, first occurrence first. -/
def dedupFirst {α : Type} [DecidableEq α] (l : List α) : List α := dedupFirstAux [] l

theorem mem_dedupFirstAux {α : Type} [DecidableEq α] :
    ∀ (l seen : List α) (x : α), x ∈ dedupFirstAux seen l ↔ (x ∈ l ∧ x ∉ seen) := by
  intro l
  induction l with
  | nil => intro seen x; simp [dedupFirstAux]
  | cons a t ih =>
    intro seen x
    by_cases ha : a ∈ seen
    · rw [dedupFirstAux, if_pos ha, ih]
      constructor
      · rintro ⟨hx, hs⟩
        exact ⟨List.mem_cons_of_mem _ hx, hs⟩
      · rintro ⟨hx, hs⟩
        rcases List.mem_cons.mp hx with rfl | hx
        · exact absurd ha hs
        · exact ⟨hx, hs⟩
    · rw [dedupFirstAux, if_neg ha]
      simp only [List.mem_cons, ih]
      constructor
      · rintro (rfl | ⟨hx, hs⟩)
        · exact ⟨Or.inl rfl, ha⟩
        · exact ⟨Or.inr hx, fun hc => hs (Or.inr hc)⟩
      · rintro ⟨hx | hx, hs⟩
        · exact Or.inl hx
        · by_cases hxa : x = a
          · exact Or.inl hxa
          · exact Or.inr ⟨hx, fun hc => hc.elim hxa hs⟩

theorem nodup_dedupFirstAux {α : Type} [DecidableEq α] :
    ∀ (l seen : List α),
      (dedupFirstAux seen l).Nodup ∧ ∀ x ∈ dedupFirstAux seen l, x ∉ seen := by
  intro l
  induction l with
  | nil =>
    intro seen
    exact ⟨List.nodup_nil, by simp [dedupFirstAux]⟩
  | cons a t ih =>
    intro seen
    by_cases ha : a ∈ seen
    · rw [dedupFirstAux, if_pos ha]
      exact ih seen
    · rw [dedupFirstAux, if_neg ha]
      obtain ⟨hnd, hmem⟩ := ih (a :: seen)
      refine ⟨List.nodup_cons.mpr ⟨?_, hnd⟩, ?_⟩
      · intro hc
        exact (hmem a hc) (List.mem_cons_self a seen)
      · intro x hx
        rcases List.mem_cons.mp hx with rfl | hx
        · exact ha
        · exact fun hc => (hmem x hx) (List.mem_cons_of_mem a hc)

theorem length_dedupFirstAux_le {α : Type} [DecidableEq α] :
    ∀ (l seen : List α), (dedupFirstAux seen l).length ≤ l.length := by
  intro l
  induction l with
  | nil => intro seen; simp [dedupFirstAux]
  | cons a t ih =>
    intro seen
    by_cases ha : a ∈ seen
    · rw [dedupFirstAux, if_pos ha]
      exact Nat.le_succ_of_le (ih seen)
    · rw [dedupFirstAux, if_neg ha]
      simpa using ih (a :: seen)

/-- The pairs of the metadata stream whose key is not yet in `seenKeys`,
first occurrence first — the pair-level reading of the dict-filling loop. -/
def freshPairs (seenKeys : List String) :
    List (String × Option Int) → List (String × Option Int)
  | [] => []
  | p :: l =>
    if source_key p.1 p.2 ∈ seenKeys then freshPairs seenKeys l
    else p :: freshPairs (source_key p.1 p.2 :: seenKeys) l

theorem freshPairs_congr :
    ∀ (l : List (String × Option Int)) (s1 s2 : List String),
      (∀ k, k ∈ s1 ↔ k ∈ s2) → freshPairs s1 l = freshPairs s2 l := by
  intro l
  induction l with
  | nil => intro s1 s2 _; rfl
  | cons p t ih =>
    intro s1 s2 hs
    by_cases h : source_key p.1 p.2 ∈ s1
    · rw [freshPairs, if_pos h, freshPairs, if_pos ((hs _).mp h)]
      exact ih s1 s2 hs
    · rw [freshPairs, if_neg h, freshPairs, if_neg (fun hc => h ((hs _).mpr hc))]
      congr 1
      apply ih
      intro k
      simp [List.mem_cons, hs k]

theorem freshPairs_eq_dedupFirstAux :
    ∀ (l seen : List (String × Option Int)),
      freshPairs (seen.map fun q => source_key q.1 q.2) l = dedupFirstAux seen l := by
  intro l
  induction l with
  | nil => intro seen; rfl
  | cons p t ih =>
    intro seen
    have hmem : (source_key p.1 p.2 ∈ seen.map fun q => source_key q.1 q.2) ↔
        p ∈ seen := by
      constructor
      · intro h
        rcases List.mem_map.mp h with ⟨q, hq, hkey⟩
        obtain ⟨h1, h2⟩ := source_key_injective hkey
        have : q = p := Prod.ext h1 h2
        rwa [← this]
      · intro h
        exact List.mem_map_of_mem _ h
    by_cases h : p ∈ seen
    · rw [freshPairs, if_pos (hmem.mpr h), dedupFirstAux, if_pos h]
      exact ih seen
    · rw [freshPairs, if_neg (fun hc => h (hmem.mp hc)), dedupFirstAux, if_neg h]
      congr 1
      have hseen : source_key p.1 p.2 :: (seen.map fun q => source_key q.1 q.2) =
          (p :: seen).map fun q => source_key q.1 q.2 := rfl
      rw [hseen]
      exact ih (p :: seen)

/-- The `(course_title, lesson_number)` pair a metadata map contributes
(`course_title` read with the `"unknown"` default, as in the code). -/
def pairOf (meta : ChunkMeta) : String × Option Int :=
  (meta.course_title.getD "unknown", meta.lesson_number)

/-- What the dict-filling loop appends to `sources_dict`: one entry per
fresh key, in first-occurrence order. -/
theorem formatLoop_sources (store : VectorStore) :
    ∀ (l : List (String × ChunkMeta)) (formatted : List String)
      (sources : List (String × SourceEntry)),
      (formatLoop store l formatted sources).2 =
        sources ++
          (freshPairs (sources.map Prod.fst) (l.map fun dm => pairOf dm.2)).map
            (fun p => (source_key p.1 p.2, mkSource store p.1 p.2)) := by
  intro l
  induction l with
  | nil =>
    intro formatted sources
    simp [formatLoop, freshPairs]
  | cons dm t ih =>
    intro formatted sources
    obtain ⟨doc, meta⟩ := dm
    simp only [pairOf]
    by_cases h : source_key (meta.course_title.getD "unknown") meta.lesson_number ∈
        sources.map Prod.fst
    · simp only [formatLoop, if_pos h]
      rw [ih]
      simp only [pairOf, List.map_cons]
      rw [freshPairs, if_pos (by simpa using h)]
    · simp only [formatLoop, if_neg h]
      rw [ih]
      simp only [pairOf, List.map_cons, List.map_append, List.map_nil,
        List.append_assoc, List.singleton_append]
      rw [freshPairs, if_neg (by simpa using h)]
      have hcg := freshPairs_congr
        ((t.map fun dm => ((dm.2.course_title.getD "unknown" : String),
            dm.2.lesson_number)))
        (sources.map Prod.fst ++
          [source_key (meta.course_title.getD "unknown") meta.lesson_number])
        (source_key (meta.course_title.getD "unknown") meta.lesson_number ::
          sources.map Prod.fst)
        (by
          intro k
          simp only [List.mem_append, List.mem_cons, List.mem_singleton]
          tauto)
      rw [hcg]
      simp

/-- The metadata pairs of a search result, in `zip` order. -/
def resultPairs (results : SearchResults) : List (String × Option Int) :=
  (results.documents.zip results.metadata).map fun dm => pairOf dm.2

theorem format_results_sources (store : VectorStore) (results : SearchResults) :
    (CourseSearchTool._format_results store results).2 =
      (dedupFirst (resultPairs results)).map fun p => mkSource store p.1 p.2 := by
  simp only [CourseSearchTool._format_results, resultPairs]
  rw [formatLoop_sources]
  have hnil : (([] : List (String × SourceEntry)).map Prod.fst) =
      (([] : List (String × Option Int)).map fun q => source_key q.1 q.2) := rfl
  rw [hnil, freshPairs_eq_dedupFirstAux]
  simp [dedupFirst, List.map_map, Function.comp]

/-- C4: on a non-error, non-empty result whose pairs span K distinct
`(course_title, lesson_number)` pairs, `_format_results` produces exactly
the K-entry provenance list obtained by keeping each pair's first
occurrence (so K ≤ N), and `execute` installs it as the tool's new
`last_sources` whatever the previous value was. -/
theorem format_results_dedup (store : VectorStore) (results : SearchResults)
    (prior : List SourceEntry) (query : String) (course_name : Option String)
    (lesson_number : Option Int)
    (herr : results.error = none) (hne : results.is_empty = false)
    (hsearch : store.search query course_name lesson_number = results) :
    (CourseSearchTool._format_results store results).2 =
      (dedupFirst (resultPairs results)).map (fun p => mkSource store p.1 p.2) ∧
    (CourseSearchTool._format_results store results).2.length =
      (dedupFirst (resultPairs results)).length ∧
    (dedupFirst (resultPairs results)).Nodup ∧
    (∀ p, p ∈ dedupFirst (resultPairs results) ↔ p ∈ resultPairs results) ∧
    (dedupFirst (resultPairs results)).length ≤ (resultPairs results).length ∧
    (CourseSearchTool.execute store prior query course_name lesson_number).2 =
      (CourseSearchTool._format_results store results).2 := by
  refine ⟨format_results_sources store results, ?_, ?_, ?_, ?_, ?_⟩
  · rw [format_results_sources store results, List.length_map]
  · exact (nodup_dedupFirstAux (resultPairs results) []).1
  · intro p
    rw [dedupFirst, mem_dedupFirstAux]
    simp
  · exact length_dedupFirstAux_le (resultPairs results) []
  · obtain ⟨docs, metas, err⟩ := results
    simp only at herr
    subst herr
    simp only [SearchResults.is_empty] at hne
    simp only [CourseSearchTool.execute, hsearch, SearchResults.is_empty, hne,
      Bool.false_eq_true, if_false]

/-- Concrete N = 3 search result spanning K = 2 distinct pairs. -/
def sampleResults : SearchResults :=
  { documents := ["d1", "d2", "d3"]
    metadata :=
      [{ course_title := some "Intro to RAG", lesson_number := some 1 },
       { course_title := some "Intro to RAG", lesson_number := some 1 },
       { course_title := some "Intro to RAG", lesson_number := some 2 }]
    error := none }

/-- A store that always returns `sampleResults`. -/
def sampleStore : VectorStore :=
  { search := fun _ _ _ => sampleResults
    get_lesson_link := fun _ _ => none }

/-- C4 witness at a concrete three-chunk, two-pair result. -/
theorem format_results_dedup_witness :
    sampleResults.error = none ∧
    sampleResults.is_empty = false ∧
    sampleStore.search "q" none none = sampleResults ∧
    ((CourseSearchTool._format_results sampleStore sampleResults).2 =
      (dedupFirst (resultPairs sampleResults)).map
        (fun p => mkSource sampleStore p.1 p.2) ∧
    (CourseSearchTool._format_results sampleStore sampleResults).2.length =
      (dedupFirst (resultPairs sampleResults)).length ∧
    (dedupFirst (resultPairs sampleResults)).Nodup ∧
    (∀ p, p ∈ dedupFirst (resultPairs sampleResults) ↔
      p ∈ resultPairs sampleResults) ∧
    (dedupFirst (resultPairs sampleResults)).length ≤
      (resultPairs sampleResults).length ∧
    (CourseSearchTool.execute sampleStore [] "q" none none).2 =
      (CourseSearchTool._format_results sampleStore sampleResults).2) :=
  ⟨rfl, rfl, rfl,
    format_results_dedup sampleStore sampleResults [] "q" none none rfl rfl rfl⟩

/-! ## Concrete witnesses for the orchestrator theorems -/

/-- A sample tool definition for concrete runs. -/
def toolDefA : ToolDef :=
  { name := some "search_course_content", description := "v1", input_schema := "s1" }

/-- An LLM that always raises and a tool that always raises. -/
def oracleDown : Oracles :=
  { llm := fun _ => .exn "network down", tool := fun _ => .exn "boom" }

/-- C1 witness: the bound holds on a concrete run. -/
theorem generateResponse_at_most_three_llm_calls_witness :
    ([toolDefA] : List ToolDef) ≠ [] ∧
    ((generateResponse oracleDown "q" none (some [toolDefA]) true).2.llmRequests.length ≤ 3 ∧
    ((generateResponse oracleDown "q" none (some [toolDefA]) true).2.llmRequests.filter
        fun r => r.tools.isSome).length ≤ 2 ∧
    ((generateResponse oracleDown "q" none (some [toolDefA]) true).2.llmRequests.filter
        fun r => r.tools.isNone).length ≤ 1) :=
  ⟨by decide,
   generateResponse_at_most_three_llm_calls oracleDown "q" none [toolDefA] (by decide)⟩

/-- A plain text content block. -/
def textBlock : ContentBlock :=
  { type := "text", text := "hello", id := "", name := "", input := [] }

/-- A first response that requests no tool. -/
def respText : Response := { stop_reason := "end_turn", content := [textBlock] }

/-- An LLM that always answers `respText`. -/
def oracleText : Oracles :=
  { llm := fun _ => .ok respText, tool := fun _ => .exn "unused" }

/-- C7 witness: a no-tool-use first response on a concrete run. -/
theorem generateResponse_no_tool_use_single_call_witness :
    ([toolDefA] : List ToolDef) ≠ [] ∧
    oracleText.llm 0 = .ok respText ∧
    respText.stop_reason ≠ "tool_use" ∧
    respText.content = textBlock :: [] ∧
    ((generateResponse oracleText "q" none (some [toolDefA]) true).1 = .ok textBlock.text ∧
    (generateResponse oracleText "q" none (some [toolDefA]) true).2.llmRequests.length = 1 ∧
    (generateResponse oracleText "q" none (some [toolDefA]) true).2.toolDispatches = []) :=
  ⟨by decide, rfl, by decide, rfl,
   generateResponse_no_tool_use_single_call oracleText "q" none [toolDefA] respText
     textBlock [] (by decide) rfl (by decide) rfl⟩

/-- A tool-use content block. -/
def toolUseBlock : ContentBlock :=
  { type := "tool_use", text := "", id := "toolu_1",
    name := "search_course_content", input := [("query", "rag")] }

/-- A first response that requests one tool call. -/
def respToolUse : Response :=
  { stop_reason := "tool_use", content := [toolUseBlock] }

/-- An LLM whose first call requests a tool and whose later calls raise,
over a tool that always raises. -/
def oracleFailing : Oracles :=
  { llm := fun n => if n = 0 then .ok respToolUse else .exn "down"
    tool := fun _ => .exn "boom" }

/-- The concrete round context of the failure-scenario witnesses. -/
def wCtx : RoundContext := initContext "q" none [toolDefA]

/-- C2 witness: the failure scenario at a concrete run (first tool call
raises, fallback call raises too). -/
theorem tool_failure_fail_fast_and_single_fallback_witness :
    wCtx.current_round + 1 ≤ 2 ∧
    oracleFailing.llm emptyTrace.llmRequests.length = .ok respToolUse ∧
    respToolUse.stop_reason = "tool_use" ∧
    (∀ i, i < 0 → ∃ s, oracleFailing.tool (emptyTrace.toolDispatches.length + i) = .ok s) ∧
    oracleFailing.tool (emptyTrace.toolDispatches.length + 0) = .exn "boom" ∧
    0 < (respToolUse.content.filter isToolUse).length ∧
    (∃ (ter : ToolExecutionResult) (freq : LLMRequest),
      (executeToolsForRound oracleFailing respToolUse
        { wCtx with current_round := wCtx.current_round + 1 }
        { emptyTrace with llmRequests := emptyTrace.llmRequests ++
            [roundRequest { wCtx with current_round := wCtx.current_round + 1 }] }).1 = ter ∧
      ter.failed = true ∧
      ter.error_message = some ("Tool execution failed: " ++ "boom") ∧
      (processRounds oracleFailing wCtx emptyTrace 2).2.2.toolDispatches =
        emptyTrace.toolDispatches ++
          (((respToolUse.content.filter isToolUse).take (0 + 1)).map
            fun b => (b.name, b.input)) ∧
      (processRounds oracleFailing wCtx emptyTrace 2).2.2.llmRequests =
        emptyTrace.llmRequests ++
          [roundRequest { wCtx with current_round := wCtx.current_round + 1 }, freq] ∧
      (∀ f, oracleFailing.llm (emptyTrace.llmRequests.length + 1) = .exn f →
        (processRounds oracleFailing wCtx emptyTrace 2).1 =
          .ok ("I encountered an error while processing your request: " ++
            ("Tool execution failed: " ++ "boom")))) :=
  ⟨by decide, rfl, rfl, fun i hi => absurd hi (Nat.not_lt_zero i), rfl, by decide,
   tool_failure_fail_fast_and_single_fallback oracleFailing wCtx emptyTrace 2 0
     respToolUse "boom" (by decide) rfl rfl
     (fun i hi => absurd hi (Nat.not_lt_zero i)) rfl (by decide)⟩

/-- C3 witness: the fallback transcript equals the pre-round transcript on
a concrete run. -/
theorem tool_failure_fallback_uses_prior_transcript_witness :
    wCtx.current_round + 1 ≤ 2 ∧
    oracleFailing.llm emptyTrace.llmRequests.length = .ok respToolUse ∧
    respToolUse.stop_reason = "tool_use" ∧
    (∀ i, i < 0 → ∃ s, oracleFailing.tool (emptyTrace.toolDispatches.length + i) = .ok s) ∧
    oracleFailing.tool (emptyTrace.toolDispatches.length + 0) = .exn "boom" ∧
    0 < (respToolUse.content.filter isToolUse).length ∧
    (∃ (ter : ToolExecutionResult) (ctx2 : RoundContext),
      (processRounds oracleFailing wCtx emptyTrace 2).2.2.llmRequests =
        emptyTrace.llmRequests ++
          [roundRequest { wCtx with current_round := wCtx.current_round + 1 },
           fallbackRequest ter ctx2] ∧
      (fallbackRequest ter ctx2).messages = wCtx.messages) :=
  ⟨by decide, rfl, rfl, fun i hi => absurd hi (Nat.not_lt_zero i), rfl, by decide,
   tool_failure_fallback_uses_prior_transcript oracleFailing wCtx emptyTrace 2 0
     respToolUse "boom" (by decide) rfl rfl
     (fun i hi => absurd hi (Nat.not_lt_zero i)) rfl (by decide)⟩

/-- C8 witness: after the concrete failure the fallback request offers no
tools and its text is final. -/
theorem tool_failure_disables_tools_witness :
    wCtx.current_round + 1 ≤ 2 ∧
    oracleFailing.llm emptyTrace.llmRequests.length = .ok respToolUse ∧
    respToolUse.stop_reason = "tool_use" ∧
    (∀ i, i < 0 → ∃ s, oracleFailing.tool (emptyTrace.toolDispatches.length + i) = .ok s) ∧
    oracleFailing.tool (emptyTrace.toolDispatches.length + 0) = .exn "boom" ∧
    0 < (respToolUse.content.filter isToolUse).length ∧
    (∃ (ter : ToolExecutionResult) (ctx2 : RoundContext),
      (processRounds oracleFailing wCtx emptyTrace 2).2.2.llmRequests =
        emptyTrace.llmRequests ++
          [roundRequest { wCtx with current_round := wCtx.current_round + 1 },
           fallbackRequest ter ctx2] ∧
      (fallbackRequest ter ctx2).tools = none ∧
      (fallbackRequest ter ctx2).tool_choice = none ∧
      (processRounds oracleFailing wCtx emptyTrace 2).2.2.toolDispatches =
        emptyTrace.toolDispatches ++
          (((respToolUse.content.filter isToolUse).take (0 + 1)).map
            fun b => (b.name, b.input)) ∧
      (∀ (resp2 : Response) (b : ContentBlock) (bs : List ContentBlock),
        oracleFailing.llm (emptyTrace.llmRequests.length + 1) = .ok resp2 →
        resp2.content = b :: bs →
        (processRounds oracleFailing wCtx emptyTrace 2).1 = .ok b.text)) :=
  ⟨by decide, rfl, rfl, fun i hi => absurd hi (Nat.not_lt_zero i), rfl, by decide,
   tool_failure_disables_tools oracleFailing wCtx emptyTrace 2 0
     respToolUse "boom" (by decide) rfl rfl
     (fun i hi => absurd hi (Nat.not_lt_zero i)) rfl (by decide)⟩

/-! ## Concrete witness for the registry theorem (C10) -/

def toolDefB : ToolDef :=
  { name := some "search_course_content", description := "v2", input_schema := "s2" }

def toolObjA : ToolObj :=
  { get_tool_definition := toolDefA, run := fun _ => .ok "a" }

def toolObjB : ToolObj :=
  { get_tool_definition := toolDefB, run := fun _ => .ok "b" }

def emptyManager : ToolManager := { tools := [] }

/-- C10 witness: registering two same-named tools in an empty manager. -/
theorem register_same_name_replaces_witness :
    toolObjA.get_tool_definition.name = some "search_course_content" ∧
    toolObjB.get_tool_definition.name = some "search_course_content" ∧
    ("search_course_content" : String) ≠ "" ∧
    (emptyManager.tools.map Prod.fst).Nodup ∧
    (∀ p ∈ emptyManager.tools, p.2.get_tool_definition.name = some p.1) ∧
    (∃ m1 m2 : ToolManager,
      emptyManager.register_tool toolObjA = .ok m1 ∧
      m1.register_tool toolObjB = .ok m2 ∧
      (m2.tools.filter fun p => p.1 = "search_course_content").length = 1 ∧
      dictGet m2.tools "search_course_content" = some toolObjB ∧
      (∀ kwargs, m2.execute_tool "search_course_content" kwargs = toolObjB.run kwargs) ∧
      (m2.get_tool_definitions.filter
        fun d => d = toolObjB.get_tool_definition).length = 1) :=
  ⟨rfl, rfl, by decide, by simp [emptyManager], by simp [emptyManager],
   register_same_name_replaces emptyManager toolObjA toolObjB "search_course_content"
     rfl rfl (by decide) (by simp [emptyManager]) (by simp [emptyManager])⟩

end Rag
